import Mathlib

/-!
Verification of the agent-cad model interaction core: a shallow embedding of
the Zustand store (useModelStore), the vertex-color rebuild (CadModel),
the measurement engine (MeasurementDisplay), the feature-name dialog and the
WebSocket command dispatcher (useWebSocket), with theorems settling the
specified properties.

Numbers are modelled by rationals; transcendental helpers (acos, asin, sqrt)
are oracle parameters of the measurement engine. JS dictionary objects are
modelled by insertion-ordered association lists, JS Sets by insertion-ordered
duplicate-free lists.
-/

namespace AgentCad

/-- First-match lookup in an association list. A JS object read on a
dictionary-style object: keys of an actual JS object are unique, so the
first match is the match. -/
def alookup {α β : Type} [DecidableEq α] : List (α × β) → α → Option β
  | [], _ => none
  | (k, v) :: rest, k' => if k = k' then some v else alookup rest k'

/-- JS property assignment on a dictionary object: update an existing key in
place, otherwise append the new key (insertion order preserved). -/
def jsSet {α β : Type} [DecidableEq α] (m : List (α × β)) (k : α) (v : β) :
    List (α × β) :=
  if (alookup m k).isSome then
    m.map (fun p => if p.1 = k then (k, v) else p)
  else m ++ [(k, v)]

/-- JS property deletion on a dictionary object (keys are unique in an actual
JS object, so removing every entry with the key equals removing the one). -/
def eraseKey {α β : Type} [DecidableEq α] (m : List (α × β)) (k : α) :
    List (α × β) :=
  m.filter (fun p => decide (p.1 ≠ k))

/-- JS Set.has. -/
def jsHas (s : List ℤ) (x : ℤ) : Bool := decide (x ∈ s)

/-- JS Set.add: appends at the end when absent. -/
def jsAdd (s : List ℤ) (x : ℤ) : List ℤ := if x ∈ s then s else s ++ [x]

/-- JS Set.delete. -/
def jsDelete (s : List ℤ) (x : ℤ) : List ℤ := s.erase x

/-- Truthiness of a JS string-or-undefined value: undefined and the empty
string are falsy. -/
def jsTruthy (o : Option String) : Bool := !((o.getD "") == "")

/-- Ascending numeric sort, the effect of JS Array.sort with comparator
a - b. -/
def sortAsc (l : List ℤ) : List ℤ := l.insertionSort (· ≤ ·)

/-- A 3-vector of rationals. -/
abbrev Vec3 := ℚ × ℚ × ℚ

/-- MeshData as consumed by the store and the color rebuild: flat vertex and
normal arrays, triangle indices, one face id per triangle, and edge
segments. -/
structure MeshData where
  vertices : List ℚ
  normals : List ℚ
  triangles : List ℕ
  face_ids : List ℤ
  edges : List ℚ
deriving DecidableEq

/-- Per-face metadata delivered by the backend. The surface-type specific
attributes are optional. -/
structure FaceMetadata where
  id : ℤ
  surface_type : String
  area : ℚ
  centroid : Vec3
  normal : Vec3
  radius : Option ℚ
  arc_angle : Option ℚ
  axis_direction : Option Vec3
  axis_point : Option Vec3
  step_name : Option String
deriving DecidableEq

/-- Model-level info used by measurements. -/
structure ModelInfo where
  length_scale : ℚ
  length_unit : String
deriving DecidableEq

/-- A feature member: a face id plus an optional sub-name. -/
structure FeatureMember where
  face_id : ℤ
  sub_name : Option String
deriving DecidableEq

/-- A feature: an assigned palette color and its ordered member list. -/
structure Feature where
  color : Vec3
  faces : List FeatureMember
deriving DecidableEq

/-- The fixed 10-entry feature color palette (FEATURE_COLORS). -/
def FEATURE_COLORS : List Vec3 :=
  [ (9/10, 3/10, 3/10)
  , (3/10, 8/10, 3/10)
  , (3/10, 5/10, 9/10)
  , (9/10, 8/10, 2/10)
  , (7/10, 3/10, 8/10)
  , (2/10, 8/10, 8/10)
  , (9/10, 5/10, 2/10)
  , (5/10, 9/10, 3/10)
  , (9/10, 4/10, 7/10)
  , (4/10, 7/10, 9/10) ]

/-- The three axis-aligned plane kinds used by grid and clip planes. -/
inductive PlaneKind where
  | XY
  | YZ
  | XZ
deriving DecidableEq

/-- GridPlane: a plane kind or null. -/
abbrev GridPlane := Option PlaneKind

/-- ClipPlane: a plane kind or null. -/
abbrev ClipPlane := Option PlaneKind

/-- The store state (useModelStore), minus the function-valued action
fields. -/
structure ModelState where
  isLoaded : Bool
  filename : Option String
  meshData : Option MeshData
  facesMetadata : List FaceMetadata
  modelInfo : Option ModelInfo
  selectedFaces : List ℤ
  hoveredFace : ℤ
  multiSelectMode : Bool
  features : List (String × Feature)
  faceToFeature : List (ℤ × String)
  xrayMode : Bool
  wireframeVisible : Bool
  colorsVisible : Bool
  gridPlane : GridPlane
  clipPlane : ClipPlane
  clipOffset : ℚ
  clipFlipped : Bool
deriving DecidableEq

/-- The initial store state. -/
def initialState : ModelState where
  isLoaded := false
  filename := none
  meshData := none
  facesMetadata := []
  modelInfo := none
  selectedFaces := []
  hoveredFace := -1
  multiSelectMode := false
  features := []
  faceToFeature := []
  xrayMode := false
  wireframeVisible := true
  colorsVisible := true
  gridPlane := some PlaneKind.XZ
  clipPlane := none
  clipOffset := 0
  clipFlipped := false

/-- selectFace(faceId, shift): additive when shift or multi-select mode is
on, toggle membership; otherwise clear when the selection is exactly the
clicked id, else replace with the clicked id. -/
def selectFace (faceId : ℤ) (shift : Bool) (s : ModelState) : ModelState :=
  let newSet :=
    if shift || s.multiSelectMode then
      if jsHas s.selectedFaces faceId then jsDelete s.selectedFaces faceId
      else jsAdd s.selectedFaces faceId
    else
      if s.selectedFaces.length = 1 && jsHas s.selectedFaces faceId then []
      else [faceId]
  { s with selectedFaces := newSet }

/-- clearSelection(). -/
def clearSelection (s : ModelState) : ModelState :=
  { s with selectedFaces := [] }

/-- setHoveredFace(faceId). -/
def setHoveredFace (faceId : ℤ) (s : ModelState) : ModelState :=
  { s with hoveredFace := faceId }

/-- toggleMultiSelect(). -/
def toggleMultiSelect (s : ModelState) : ModelState :=
  { s with multiSelectMode := !s.multiSelectMode }

/-- setXray(value). -/
def setXray (value : Bool) (s : ModelState) : ModelState :=
  { s with xrayMode := value }

/-- setWireframe(value). -/
def setWireframe (value : Bool) (s : ModelState) : ModelState :=
  { s with wireframeVisible := value }

/-- setColors(value). -/
def setColors (value : Bool) (s : ModelState) : ModelState :=
  { s with colorsVisible := value }

/-- setGridPlane(plane): toggles off when the same plane is already
active. -/
def setGridPlane (plane : GridPlane) (s : ModelState) : ModelState :=
  { s with gridPlane := if s.gridPlane = plane then none else plane }

/-- setClipPlane(plane): toggles off when the same plane is already active,
and always resets offset and flip. -/
def setClipPlane (plane : ClipPlane) (s : ModelState) : ModelState :=
  { s with
    clipPlane := if s.clipPlane = plane then none else plane
    clipOffset := 0
    clipFlipped := false }

/-- setClipOffset(offset). -/
def setClipOffset (offset : ℚ) (s : ModelState) : ModelState :=
  { s with clipOffset := offset }

/-- flipClip(). -/
def flipClip (s : ModelState) : ModelState :=
  { s with clipFlipped := !s.clipFlipped }

/-- The result value of createFeature: a success flag plus an optional error
message. -/
structure CreateResult where
  success : Bool
  error : Option String
deriving DecidableEq

/-- Surface type used for a selected face id: the surface_type of the first
metadata entry with that id, or the string unknown when there is none
(the JS expression is a find followed by optional chaining with a
nullish-coalescing default). -/
def typeOfFace (metadata : List FaceMetadata) (fid : ℤ) : String :=
  match metadata.find? (fun f => f.id == fid) with
  | some m => m.surface_type
  | none => "unknown"

/-- First loop of the sub-name generation: occurrence counts of the surface
types of the selected faces. -/
def buildTypeCounts (metadata : List FaceMetadata) (faceIds : List ℤ) :
    List (String × ℕ) :=
  faceIds.foldl
    (fun m fid =>
      let t := typeOfFace metadata fid
      jsSet m t ((alookup m t).getD 0 + 1))
    []

/-- One step of the second sub-name generation loop, carrying the per-type
running index map and the member list built so far: a type counted once
gets the bare type string, a type counted more than once gets type_i with
the bumped running index. -/
def mkMemberStep (metadata : List FaceMetadata)
    (typeCounts : List (String × ℕ))
    (acc : List (String × ℕ) × List FeatureMember) (fid : ℤ) :
    List (String × ℕ) × List FeatureMember :=
  let t := typeOfFace metadata fid
  if (alookup typeCounts t).getD 0 == 1 then
    (acc.1, acc.2 ++ [⟨fid, some t⟩])
  else
    let idx := (alookup acc.1 t).getD 0 + 1
    (jsSet acc.1 t idx, acc.2 ++ [⟨fid, some (t ++ "_" ++ toString idx)⟩])

/-- Second loop of the sub-name generation: walk the sorted face ids keeping
a per-type running index. -/
def mkMembersLoop (metadata : List FaceMetadata)
    (typeCounts : List (String × ℕ)) (faceIds : List ℤ) :
    List (String × ℕ) × List FeatureMember :=
  faceIds.foldl (mkMemberStep metadata typeCounts) ([], [])

/-- Auto-generated member list of createFeature: a single selected face gets
no sub-name, otherwise sub-names come from the surface-type grouping. -/
def mkMembers (metadata : List FaceMetadata) (faceIds : List ℤ) :
    List FeatureMember :=
  if faceIds.length = 1 then [⟨faceIds.headD 0, none⟩]
  else (mkMembersLoop metadata (buildTypeCounts metadata faceIds) faceIds).2

/-- createFeature(name): validation (empty selection, duplicate name, face
already owned by a truthy faceToFeature entry), then member generation,
palette color assignment, and the atomic state update clearing the
selection. -/
def createFeature (name : String) (s : ModelState) : ModelState × CreateResult :=
  if s.selectedFaces.length = 0 then
    (s, ⟨false, some "No faces selected"⟩)
  else if (alookup s.features name).isSome then
    (s, ⟨false, some "Name already exists"⟩)
  else
    match s.selectedFaces.find? (fun fid => jsTruthy (alookup s.faceToFeature fid)) with
    | some fid =>
        (s, ⟨false, some ("Face " ++ toString fid ++ " already assigned to \x22"
              ++ (alookup s.faceToFeature fid).getD "" ++ "\x22")⟩)
    | none =>
        let faceIds := sortAsc s.selectedFaces
        let members := mkMembers s.facesMetadata faceIds
        let colorIdx := s.features.length
        let color := FEATURE_COLORS.getD (colorIdx % FEATURE_COLORS.length) (0, 0, 0)
        let newFeatures := jsSet s.features name ⟨color, members⟩
        let newFaceToFeature :=
          members.foldl (fun m mem => jsSet m mem.face_id name) s.faceToFeature
        ({ s with
            features := newFeatures
            faceToFeature := newFaceToFeature
            selectedFaces := [] }, ⟨true, none⟩)

/-- deleteFeature(name): remove the feature and purge each of its members
from the reverse index; no-op when the name does not exist. -/
def deleteFeature (name : String) (s : ModelState) : ModelState :=
  match alookup s.features name with
  | none => s
  | some feature =>
      let newFaceToFeature :=
        feature.faces.foldl (fun m mem => eraseKey m mem.face_id) s.faceToFeature
      let newFeatures := eraseKey s.features name
      { s with features := newFeatures, faceToFeature := newFaceToFeature }

/-- Top-level group name and optional remainder of a hierarchical STEP name:
split on the dot, first part is the feature name, the rest re-joined with
dots is the sub-name (null when there is no dot). -/
def splitStepName (s : String) : String × Option String :=
  let parts := s.splitOn "."
  (parts.headD "",
   if parts.length > 1 then some (String.intercalate "." parts.tail) else none)

/-- One step of the first loadModel loop: a face carrying a truthy
step_name is appended to the group named by the top-level part of that
name. -/
def groupInsert (groups : List (String × List FeatureMember))
    (face : FaceMetadata) : List (String × List FeatureMember) :=
  match face.step_name with
  | none => groups
  | some sn =>
      if sn == "" then groups
      else
        let parts := splitStepName sn
        let mem : FeatureMember := ⟨face.id, parts.2⟩
        match alookup groups parts.1 with
        | some ms => jsSet groups parts.1 (ms ++ [mem])
        | none => jsSet groups parts.1 [mem]

/-- First loop of loadModel: group the faces carrying a truthy step_name by
the top-level part of that name, keeping first-seen group order and in-group
face order. -/
def buildFeatureGroups (faces : List FaceMetadata) :
    List (String × List FeatureMember) :=
  faces.foldl groupInsert []

/-- One step of the second loadModel loop: record the group as a feature
with the next palette color, point every member's face id at the group in
the reverse index, and bump the color counter. -/
def groupStep (acc : List (String × Feature) × List (ℤ × String) × ℕ)
    (g : String × List FeatureMember) :
    List (String × Feature) × List (ℤ × String) × ℕ :=
  let color := FEATURE_COLORS.getD (acc.2.2 % FEATURE_COLORS.length) (0, 0, 0)
  (jsSet acc.1 g.1 ⟨color, g.2⟩,
   g.2.foldl (fun m mem => jsSet m mem.face_id g.1) acc.2.1,
   acc.2.2 + 1)

/-- Second loop of loadModel: assign palette colors in group order and build
the features map and the reverse index. -/
def groupsToFeatures (groups : List (String × List FeatureMember)) :
    List (String × Feature) × List (ℤ × String) :=
  let res := groups.foldl groupStep ([], [], 0)
  (res.1, res.2.1)

/-- loadModel(meshData, faces, info, filename): import features from
hierarchical STEP names, then replace the model data and reset selection,
hover and clip state (display toggles and multi-select persist). -/
def loadModel (meshData : MeshData) (faces : List FaceMetadata)
    (info : ModelInfo) (filename : String) (s : ModelState) : ModelState :=
  let groups := buildFeatureGroups faces
  let fr := groupsToFeatures groups
  { s with
    isLoaded := true
    filename := some filename
    meshData := some meshData
    facesMetadata := faces
    modelInfo := some info
    selectedFaces := []
    hoveredFace := -1
    features := fr.1
    faceToFeature := fr.2
    clipPlane := none
    clipOffset := 0
    clipFlipped := false }

/-! Measurement engine (MeasurementDisplay.tsx). -/

/-- Vector dot product on flat 3-vectors. -/
def dot (a b : Vec3) : ℚ := a.1 * b.1 + a.2.1 * b.2.1 + a.2.2 * b.2.2

/-- Vector subtraction. -/
def sub (a b : Vec3) : Vec3 := (a.1 - b.1, a.2.1 - b.2.1, a.2.2 - b.2.2)

/-- Vector scaling. -/
def vscale (v : Vec3) (s : ℚ) : Vec3 := (v.1 * s, v.2.1 * s, v.2.2 * s)

/-- Left-pad a string with zeros to the given length. -/
def padZeros (s : String) (n : ℕ) : String :=
  String.mk (List.replicate (n - s.length) '0') ++ s

/-- Digit rendering of a scaled integer: sign, integer part, and a
fixed-width fraction part of the given number of decimal digits. -/
def toFixedInt (scaled : ℤ) (digits : ℕ) : String :=
  (if scaled < 0 then "-" else "")
    ++ toString (scaled.natAbs / 10 ^ digits)
    ++ (if digits = 0 then ""
        else "." ++ padZeros (toString (scaled.natAbs % 10 ^ digits)) digits)

/-- Rendering of Number.prototype.toFixed on an exact rational: round to the
given number of decimal digits, ties to the larger value, and print with a
fixed-width fraction part. -/
def toFixed (x : ℚ) (digits : ℕ) : String :=
  toFixedInt (Int.floor (x * (10 : ℚ) ^ digits + 1/2)) digits

/-- computeMeasurement(faces, lengthScale, lengthUnit), parameterized by
oracles for the transcendental functions the source takes from Math:
acosDeg x stands for Math.acos(x) converted to degrees, asinDeg likewise for
Math.asin, and sqrtQ for Math.sqrt (used through the vector magnitude). -/
def computeMeasurement (acosDeg asinDeg sqrtQ : ℚ → ℚ)
    (faces : List FaceMetadata) (lengthScale : ℚ) (lengthUnit : String) :
    Option String :=
  match faces with
  | [f] =>
      if f.surface_type == "cylindrical" then
        match f.radius, f.arc_angle with
        | some radius, some arc =>
            if arc ≥ 180 then
              some ("Diameter: " ++ toFixed (radius * 2 * lengthScale) 3
                ++ " " ++ lengthUnit)
            else
              some ("Radius: " ++ toFixed (radius * lengthScale) 3
                ++ " " ++ lengthUnit)
        | _, _ => none
      else none
  | [f1, f2] =>
      if f1.surface_type == "planar" && f2.surface_type == "planar" then
        let n1 := f1.normal
        let n2 := f2.normal
        let dotVal := |dot n1 n2|
        if dotVal > 999/1000 then
          let d := sub f2.centroid f1.centroid
          let dist := |dot n1 d| * lengthScale
          some ("Distance: " ++ toFixed dist 3 ++ " " ++ lengthUnit)
        else
          some ("Angle: " ++ toFixed (acosDeg (min 1 |dot n1 n2|)) 2 ++ "deg")
      else if f1.surface_type == "cylindrical" && f2.surface_type == "cylindrical" then
        match f1.axis_direction, f2.axis_direction, f1.axis_point, f2.axis_point with
        | some d1, some d2, some p1, some p2 =>
            let axisDot := |dot d1 d2|
            if axisDot > 999/1000 then
              let v := sub p2 p1
              let proj := dot v d1
              let perp := sub v (vscale d1 proj)
              let dist := sqrtQ (dot perp perp) * lengthScale
              some ("Center distance: " ++ toFixed dist 3 ++ " " ++ lengthUnit)
            else
              some ("Axis angle: " ++ toFixed (acosDeg (min 1 axisDot)) 2 ++ "deg")
        | _, _, _, _ => none
      else
        let cyl := if f1.surface_type == "cylindrical" then some f1
          else if f2.surface_type == "cylindrical" then some f2 else none
        let pln := if f1.surface_type == "planar" then some f1
          else if f2.surface_type == "planar" then some f2 else none
        match cyl, pln with
        | some c, some p =>
            match c.axis_direction, c.axis_point with
            | some adir, some apt =>
                let axisDot := |dot adir p.normal|
                if axisDot < 1/100 then
                  let v := sub apt p.centroid
                  let dist := |dot p.normal v| * lengthScale
                  some ("Axis-to-plane: " ++ toFixed dist 3 ++ " " ++ lengthUnit)
                else
                  some ("Axis-to-plane angle: "
                    ++ toFixed (asinDeg (min 1 axisDot)) 2 ++ "deg")
            | _, _ => none
        | _, _ => none
  | _ => none

/-- The measurement shown for the current store state (the useMemo in
MeasurementDisplay): none without model info, with zero or more than two
selected faces, or when no selected id resolves to metadata; otherwise
computeMeasurement on the resolved metadata in selection order. -/
def measurementOf (acosDeg asinDeg sqrtQ : ℚ → ℚ) (s : ModelState) :
    Option String :=
  match s.modelInfo with
  | none => none
  | some info =>
      if s.selectedFaces.length = 0 || s.selectedFaces.length > 2 then none
      else
        let faces := s.selectedFaces.filterMap
          (fun id => s.facesMetadata.find? (fun f => f.id == id))
        if faces.length = 0 then none
        else computeMeasurement acosDeg asinDeg sqrtQ faces
          info.length_scale info.length_unit

/-! Vertex color rebuild (CadModel.tsx). The color buffer is modelled as a
list with one rational RGB triple per vertex; a flat write of the three
components of one vertex is all-or-nothing, and an out-of-range write on a
Float32Array is silently ignored, matched here by List.set being the
identity out of range. -/

/-- Neutral base color. -/
def BASE_COLOR : Vec3 := (6/10, 6/10, 65/100)

/-- Hover highlight color. -/
def HOVER_COLOR : Vec3 := (5/10, 65/100, 8/10)

/-- Selection color. -/
def SELECT_COLOR : Vec3 := (3/10, 6/10, 1)

/-- setTriColor: write one color to the three vertices of a triangle, each
vertex index read from the triangle index array (a missing index entry or an
out-of-range vertex index writes nothing). -/
def setTriColor (triangles : List ℕ) (colors : List Vec3) (triIdx : ℕ)
    (c : Vec3) : List Vec3 :=
  let w0 :=
    match triangles[triIdx * 3]? with
    | some vi => colors.set vi c
    | none => colors
  let w1 :=
    match triangles[triIdx * 3 + 1]? with
    | some vi => w0.set vi c
    | none => w0
  match triangles[triIdx * 3 + 2]? with
  | some vi => w1.set vi c
  | none => w1

/-- One painting walk over a list of triangle indices: triangles for which
the coloring rule returns a color get all their vertices painted with it. -/
def paintPass (triangles : List ℕ) (g : ℕ → Option Vec3) (ts : List ℕ)
    (cols : List Vec3) : List Vec3 :=
  ts.foldl
    (fun cs t =>
      match g t with
      | some c => setTriColor triangles cs t c
      | none => cs)
    cols

/-- The feature-pass coloring rule of a triangle: its face id must map to a
truthy feature name which must exist in the features map. -/
def featColorOf (features : List (String × Feature)) (f2f : List (ℤ × String))
    (faceIds : List ℤ) (t : ℕ) : Option Vec3 :=
  match faceIds[t]? with
  | none => none
  | some fid =>
      match alookup f2f fid with
      | none => none
      | some fname =>
          if fname == "" then none
          else
            match alookup features fname with
            | some feat => some feat.color
            | none => none

/-- rebuildColors: reset every vertex to the base color, then paint feature
colors (when visible), then the hover face (when set and unselected), then
every selected face. -/
def rebuildColors (meshData : MeshData) (selected : List ℤ) (hovered : ℤ)
    (features : List (String × Feature)) (f2f : List (ℤ × String))
    (colorsVisible : Bool) (colors : List Vec3) : List Vec3 :=
  let T := meshData.face_ids.length
  let base := colors.map (fun _ => BASE_COLOR)
  let afterFeatures :=
    if colorsVisible then
      paintPass meshData.triangles (featColorOf features f2f meshData.face_ids)
        (List.range T) base
    else base
  let afterHover :=
    if decide (hovered ≥ 0) && !(jsHas selected hovered) then
      paintPass meshData.triangles
        (fun t =>
          if meshData.face_ids[t]? == some hovered then some HOVER_COLOR
          else none)
        (List.range T) afterFeatures
    else afterFeatures
  selected.foldl
    (fun cs selId =>
      paintPass meshData.triangles
        (fun t =>
          if meshData.face_ids[t]? == some selId then some SELECT_COLOR
          else none)
        (List.range T) cs)
    afterHover

/-- Whether vertex v is one of the three recorded vertices of triangle t. -/
def triHasVert (triangles : List ℕ) (t v : ℕ) : Bool :=
  (triangles[t * 3]? == some v) || (triangles[t * 3 + 1]? == some v)
    || (triangles[t * 3 + 2]? == some v)

/-- The color left on a vertex by one painting walk, resolved declaratively:
the rule color of the last triangle that touches the vertex, if any. -/
def lastWriter (triangles : List ℕ) (g : ℕ → Option Vec3) (T v : ℕ) :
    Option Vec3 :=
  match ((List.range T).filter
      (fun t => (g t).isSome && triHasVert triangles t v)).getLast? with
  | some t => g t
  | none => none

/-- Declarative per-vertex color, written from the specified four rules in
priority order: selection beats hover beats feature colors beats the base
color; within the feature rule a vertex shared by triangles of differently
colored features takes the last triangle's color, as one sequential walk
leaves it. -/
def colorSpec (meshData : MeshData) (selected : List ℤ) (hovered : ℤ)
    (features : List (String × Feature)) (f2f : List (ℤ × String))
    (colorsVisible : Bool) (v : ℕ) : Vec3 :=
  let T := meshData.face_ids.length
  let selCond := selected.any
    (fun selId =>
      (List.range T).any
        (fun t =>
          (meshData.face_ids[t]? == some selId)
            && triHasVert meshData.triangles t v))
  let hoverCond := decide (hovered ≥ 0) && !(jsHas selected hovered) &&
    (List.range T).any
      (fun t =>
        (meshData.face_ids[t]? == some hovered)
          && triHasVert meshData.triangles t v)
  if selCond then SELECT_COLOR
  else if hoverCond then HOVER_COLOR
  else if colorsVisible then
    match lastWriter meshData.triangles
        (featColorOf features f2f meshData.face_ids) T v with
    | some c => c
    | none => BASE_COLOR
  else BASE_COLOR

/-! Command dispatcher (handleCadCommand in useWebSocket) and the
feature-name dialog. -/

/-- A cad_command protocol message: the action tag plus its optional
payload fields. A clip_plane field can be absent (outer none) or carry the
null plane (inner none). -/
structure CadCommandMessage where
  action : String
  face_ids : Option (List ℤ)
  name : Option String
  xray : Option Bool
  wireframe : Option Bool
  colors : Option Bool
  clip_plane : Option ClipPlane
  fit_all : Option Bool
  view : Option String
  zoom : Option ℚ
deriving DecidableEq

/-- Modelled from the spec: fitAll (ViewController fitToExtents, spec 4.6)
computes camera placement from the mesh bounding box and moves the camera
only; the camera is outside the modelled store state, so the action is the
identity here. Its store definition is not under src (the dispatcher calls
it on the store). -/
def fitAll (s : ModelState) : ModelState := s

/-- Modelled from the spec: setView (ViewController, spec 4.6) places the
camera for a named view and zoom and moves the camera only; identity on the
modelled store state. Its store definition is not under src. -/
def setView (_view : String) (_zoom : ℚ) (s : ModelState) : ModelState := s

/-- handleCadCommand(msg): route a cad_command message to the store
mutation selected by its action tag; unknown actions change nothing. -/
def handleCadCommand (msg : CadCommandMessage) (s : ModelState) : ModelState :=
  if msg.action == "select_faces" then
    match msg.face_ids with
    | some ids => ids.foldl (fun st id => selectFace id true st) s
    | none => s
  else if msg.action == "clear_selection" then clearSelection s
  else if msg.action == "create_feature" then
    match msg.name with
    | some n => if n == "" then s else (createFeature n s).1
    | none => s
  else if msg.action == "delete_feature" then
    match msg.name with
    | some n => if n == "" then s else deleteFeature n s
    | none => s
  else if msg.action == "set_display" then
    let s1 := match msg.xray with | some b => setXray b s | none => s
    let s2 := match msg.wireframe with | some b => setWireframe b s1 | none => s1
    let s3 := match msg.colors with | some b => setColors b s2 | none => s2
    let s4 := match msg.clip_plane with | some cp => setClipPlane cp s3 | none => s3
    match msg.fit_all with
    | some true => fitAll s4
    | _ => s4
  else if msg.action == "set_view" then
    match msg.view with
    | some v => if v == "" then s else setView v (msg.zoom.getD 1) s
    | none => s
  else s

/-- Outcome of the feature-name dialog confirm: rejected before reaching the
store, or confirmed with the store's createFeature result. -/
inductive DialogOutcome where
  | rejected (message : String)
  | confirmed (result : CreateResult)
deriving DecidableEq

/-- The required feature-name pattern: a lowercase ASCII letter followed by
lowercase letters, digits or underscores. -/
def isSnakeCase (s : String) : Bool :=
  match s.data with
  | [] => false
  | c :: rest =>
      ('a' ≤ c && c ≤ 'z') &&
        rest.all (fun d => ('a' ≤ d && d ≤ 'z') || ('0' ≤ d && d ≤ '9') || d == '_')

/-- Whitespace trimming at both ends, modelling String.prototype.trim. -/
def jsTrim (s : String) : String :=
  String.mk
    (((s.data.dropWhile (fun c => c.isWhitespace)).reverse.dropWhile
      (fun c => c.isWhitespace)).reverse)

/-- FeatureNameDialog.handleConfirm composed with the FeaturesPanel confirm
callback: trim the input, reject an empty or non-snake-case name without
touching the store, otherwise call the store's createFeature on the trimmed
name. -/
def dialogConfirm (name : String) (s : ModelState) : ModelState × DialogOutcome :=
  let trimmed := jsTrim name
  if trimmed == "" then (s, .rejected "Name is required")
  else if !(isSnakeCase trimmed) then
    (s, .rejected "Use snake_case (e.g., mounting_boss)")
  else
    let r := createFeature trimmed s
    (r.1, .confirmed r.2)

/-! Store operations as a syntax of events, for reachability statements. -/

/-- One store mutation. -/
inductive Op where
  | load (meshData : MeshData) (faces : List FaceMetadata) (info : ModelInfo)
      (filename : String)
  | clearM
  | select (faceId : ℤ) (shift : Bool)
  | clearSel
  | hover (faceId : ℤ)
  | toggleMulti
  | create (name : String)
  | deleteF (name : String)
  | xray (b : Bool)
  | wire (b : Bool)
  | colors (b : Bool)
  | grid (p : GridPlane)
  | clip (p : ClipPlane)
  | clipOff (q : ℚ)
  | flip

/-- clearModel(). -/
def clearModel (s : ModelState) : ModelState :=
  { s with
    isLoaded := false
    filename := none
    meshData := none
    facesMetadata := []
    modelInfo := none
    selectedFaces := []
    hoveredFace := -1
    features := []
    faceToFeature := [] }

/-- Apply one store mutation. -/
def applyOp : Op → ModelState → ModelState
  | .load md f i n, s => loadModel md f i n s
  | .clearM, s => clearModel s
  | .select id sh, s => selectFace id sh s
  | .clearSel, s => clearSelection s
  | .hover id, s => setHoveredFace id s
  | .toggleMulti, s => toggleMultiSelect s
  | .create n, s => (createFeature n s).1
  | .deleteF n, s => deleteFeature n s
  | .xray b, s => setXray b s
  | .wire b, s => setWireframe b s
  | .colors b, s => setColors b s
  | .grid p, s => setGridPlane p s
  | .clip p, s => setClipPlane p s
  | .clipOff q, s => setClipOffset q s
  | .flip, s => flipClip s

/-- Run a sequence of store mutations from the initial state. -/
def execOps (ops : List Op) : ModelState :=
  ops.foldl (fun s op => applyOp op s) initialState

/-- States reachable from the initial state through store mutations. -/
inductive Reachable : ModelState → Prop where
  | init : Reachable initialState
  | step : ∀ (op : Op) (s : ModelState), Reachable s → Reachable (applyOp op s)

/-- The face ids of a feature's member list. -/
def MemberIds (feat : Feature) : List ℤ := feat.faces.map FeatureMember.face_id

/-- The features map and reverse index agree: a face id maps to a name
exactly when that feature exists and lists the face. -/
def Synced (s : ModelState) : Prop :=
  ∀ f n, alookup s.faceToFeature f = some n ↔
    ∃ feat, alookup s.features n = some feat ∧ f ∈ MemberIds feat

/-- No face id appears in the member lists of two differently named
features. -/
def NoDoubleOwner (s : ModelState) : Prop :=
  ∀ n1 n2 feat1 feat2 f,
    alookup s.features n1 = some feat1 → alookup s.features n2 = some feat2 →
    f ∈ MemberIds feat1 → f ∈ MemberIds feat2 → n1 = n2

/-- Mutual consistency of the feature collection and the reverse index, as
claimed. -/
def Consistent (s : ModelState) : Prop := Synced s ∧ NoDoubleOwner s

/-- Every feature name in the state is nonempty (so the JS truthiness test
on reverse-index values cannot miss an owner). -/
def NamesNonempty (s : ModelState) : Prop :=
  ∀ n ∈ s.features.map Prod.fst, n ≠ ""

/-- The inductive invariant: nonempty names plus the sync property. -/
def Inv (s : ModelState) : Prop := NamesNonempty s ∧ Synced s

/-- Face lists a loadModel call may receive: unique ids (the data model
declares face ids unique) and no hierarchical name whose top-level group is
the empty string. -/
def GoodFaces (faces : List FaceMetadata) : Prop :=
  (faces.map FaceMetadata.id).Nodup ∧
    ∀ face ∈ faces,
      match face.step_name with
      | none => True
      | some sn => sn ≠ "" → (splitStepName sn).1 ≠ ""

/-- Restriction on mutations under which the consistency invariant is
preserved: createFeature is called with a nonempty name and loadModel with
well-formed faces. -/
def GoodOp : Op → Prop
  | .load _ faces _ _ => GoodFaces faces
  | .create name => name ≠ ""
  | _ => True

/-- States reachable through restricted mutations. -/
inductive GoodReachable : ModelState → Prop where
  | init : GoodReachable initialState
  | step : ∀ (op : Op) (s : ModelState), GoodOp op → GoodReachable s →
      GoodReachable (applyOp op s)

/-! Concrete fixtures used by witnesses and counterexamples. -/

/-- A planar test face. -/
def planeFace (fid : ℤ) (c : Vec3) : FaceMetadata :=
  ⟨fid, "planar", 1, c, (0, 0, 1), none, none, none, none, none⟩

/-- A cylindrical test face of radius 3 and arc angle 360. -/
def cylFace : FaceMetadata :=
  ⟨3, "cylindrical", 1, (0, 0, 0), (0, 0, 1), some 3, some 360, none, none, none⟩

/-- A state with two faces selected. -/
def twoSelState : ModelState :=
  { initialState with selectedFaces := [1, 2] }

/-- A loaded single-face state used by the dangling-selection evaluation. -/
def oneFaceState : ModelState :=
  loadModel ⟨[0, 0, 0, 0, 1, 0, 1, 0, 0], [0, 0, 1, 0, 0, 1, 0, 0, 1],
    [0, 1, 2], [1], []⟩ [planeFace 1 (0, 0, 0)] ⟨1, "mm"⟩ "part.step"
    initialState

/-- A reachable state in which face 5 is owned by a feature named by the
empty string. -/
def emptyNameState : ModelState :=
  execOps [.select 5 true, .create "", .select 5 true]

/-- The reachable state obtained by creating a second feature over the same
face 5. -/
def doubleOwnState : ModelState := execOps
  [.select 5 true, .create "", .select 5 true, .create "x"]

/-- A state with one unowned face selected and no features, on which any
name passes the store checks. -/
def freshSelState : ModelState :=
  { initialState with
    facesMetadata := [planeFace 1 (0, 0, 0)]
    selectedFaces := [1] }

/-- Metadata for the sub-name witness: two planar faces and one cylindrical
face. -/
def mixedMeta : List FaceMetadata :=
  [ planeFace 1 (0, 0, 0)
  , ⟨2, "cylindrical", 1, (0, 0, 0), (0, 0, 1), some 1, some 90, none, none, none⟩
  , planeFace 3 (1, 0, 0) ]

/-- State for the sub-name witness: three faces selected out of order. -/
def mixedSelState : ModelState :=
  { initialState with
    facesMetadata := mixedMeta
    selectedFaces := [3, 1, 2] }

/-- A tiny one-triangle mesh over face id 7. -/
def oneTriMesh : MeshData :=
  ⟨[0, 0, 0, 0, 1, 0, 1, 0, 0], [0, 0, 1, 0, 0, 1, 0, 0, 1], [0, 1, 2],
    [7], []⟩

/-- A state with a cylindrical face selected, for the measurement witness. -/
def cylSelState : ModelState :=
  { initialState with
    modelInfo := some ⟨1, "mm"⟩
    facesMetadata := [cylFace]
    selectedFaces := [3] }

/-- Declarative sub-name rule for one selected face, written from the
claim: the bare type string when the face's surface type occurs once among
the selected faces, otherwise type_i with i one more than the number of
same-type faces that precede it in ascending order. The preceding faces are
passed as the pre argument. -/
def subNameSpec (metadata : List FaceMetadata)
    (typeCounts : List (String × ℕ)) (pre : List ℤ) (fid : ℤ) :
    FeatureMember :=
  let t := typeOfFace metadata fid
  if (alookup typeCounts t).getD 0 == 1 then ⟨fid, some t⟩
  else
    ⟨fid, some (t ++ "_"
      ++ toString (pre.countP (fun g => typeOfFace metadata g == t) + 1))⟩

/-- Declarative member list for a sorted selection: one member per face in
order, each sub-named by the rule above. -/
def membersSpec (metadata : List FaceMetadata)
    (typeCounts : List (String × ℕ)) : List ℤ → List ℤ → List FeatureMember
  | _, [] => []
  | pre, fid :: rest =>
      subNameSpec metadata typeCounts pre fid ::
        membersSpec metadata typeCounts (pre ++ [fid]) rest

/-- The members contributed to a given feature group by loadModel: one per
face whose truthy step_name has that top-level group name, in face order. -/
def membersOfName (faces : List FaceMetadata) (n : String) :
    List FeatureMember :=
  faces.filterMap
    (fun face =>
      match face.step_name with
      | none => none
      | some sn =>
          if sn == "" then none
          else if (splitStepName sn).1 == n then
            some ⟨face.id, (splitStepName sn).2⟩
          else none)

/-! Association-list lemmas. -/

theorem alookup_append {α β : Type} [DecidableEq α] (m1 m2 : List (α × β))
    (k : α) :
    alookup (m1 ++ m2) k =
      match alookup m1 k with
      | some v => some v
      | none => alookup m2 k := by
  induction m1 with
  | nil => simp [alookup]
  | cons p rest ih =>
      obtain ⟨k1, v1⟩ := p
      by_cases h : k1 = k <;> simp [alookup, h, ih]

theorem alookup_eq_none_iff {α β : Type} [DecidableEq α] (m : List (α × β))
    (k : α) : alookup m k = none ↔ k ∉ m.map Prod.fst := by
  induction m with
  | nil => simp [alookup]
  | cons p rest ih =>
      obtain ⟨k1, v1⟩ := p
      by_cases h : k1 = k
      · subst h
        simp [alookup]
      · have h' : ¬ k = k1 := fun he => h he.symm
        simp [alookup, h, h', ih]

theorem alookup_mapReplace {α β : Type} [DecidableEq α] (m : List (α × β))
    (k : α) (v : β) (k' : α) :
    alookup (m.map (fun p => if p.1 = k then (k, v) else p)) k' =
      if k = k' then (if (alookup m k).isSome then some v else none)
      else alookup m k' := by
  induction m with
  | nil => by_cases h : k = k' <;> simp [alookup, h]
  | cons p rest ih =>
      obtain ⟨k1, v1⟩ := p
      simp only [List.map_cons]
      by_cases h1 : k1 = k
      · subst h1
        simp only [if_pos rfl]
        by_cases h2 : k1 = k'
        · subst h2
          simp [alookup]
        · have h2' : ¬ k1 = k' := h2
          simp only [alookup, if_pos rfl, if_neg h2', ih, Option.isSome_some,
            if_true]
      · simp only [if_neg h1]
        by_cases h2 : k1 = k'
        · subst h2
          have hk : ¬ k = k1 := fun he => h1 he.symm
          simp [alookup, hk]
        · simp only [alookup, if_neg h1, if_neg h2, ih]

theorem alookup_jsSet {α β : Type} [DecidableEq α] (m : List (α × β))
    (k : α) (v : β) (k' : α) :
    alookup (jsSet m k v) k' = if k = k' then some v else alookup m k' := by
  unfold jsSet
  by_cases hs : (alookup m k).isSome
  · rw [if_pos hs, alookup_mapReplace]
    simp [hs]
  · rw [if_neg hs]
    rw [alookup_append]
    have hn : alookup m k = none := by
      cases ha : alookup m k
      · rfl
      · simp [ha] at hs
    by_cases h : k = k'
    · subst h
      simp [hn, alookup]
    · cases ha : alookup m k' <;> simp [alookup, h, ha]

theorem alookup_eraseKey {α β : Type} [DecidableEq α] (m : List (α × β))
    (k k' : α) :
    alookup (eraseKey m k) k' = if k = k' then none else alookup m k' := by
  induction m with
  | nil => simp [eraseKey, alookup]
  | cons p rest ih =>
      obtain ⟨k1, v1⟩ := p
      by_cases h1 : k1 = k
      · subst h1
        by_cases h2 : k1 = k'
        · subst h2; simp [eraseKey, alookup] at ih ⊢; simpa using ih
        · simpa [eraseKey, alookup, h2] using ih
      · by_cases h2 : k1 = k'
        · subst h2
          have hk : ¬ k = k1 := fun he => h1 he.symm
          simp [eraseKey, alookup, h1, hk]
        · simpa [eraseKey, alookup, h1, h2] using ih

theorem mem_of_alookup_eq_some {α β : Type} [DecidableEq α]
    {m : List (α × β)} {k : α} {v : β} (h : alookup m k = some v) :
    (k, v) ∈ m := by
  induction m with
  | nil => simp [alookup] at h
  | cons p rest ih =>
      obtain ⟨k1, v1⟩ := p
      by_cases h1 : k1 = k
      · subst h1
        simp [alookup] at h
        simp [h]
      · simp [alookup, h1] at h
        simp [ih h]

theorem alookup_eq_some_of_mem {α β : Type} [DecidableEq α]
    {m : List (α × β)} {k : α} {v : β}
    (hnd : (m.map Prod.fst).Nodup) (h : (k, v) ∈ m) :
    alookup m k = some v := by
  induction m with
  | nil => simp at h
  | cons p rest ih =>
      obtain ⟨k1, v1⟩ := p
      simp only [List.map_cons, List.nodup_cons] at hnd
      rcases List.mem_cons.mp h with he | hm
      · cases he
        simp [alookup]
      · have hk : k1 ≠ k := by
          intro heq
          subst heq
          exact hnd.1 (List.mem_map.mpr ⟨(k1, v), hm, rfl⟩)
        simp [alookup, hk, ih hnd.2 hm]

theorem alookup_foldl_writes {α β : Type} [DecidableEq α]
    (ws : List (α × β)) (m0 : List (α × β)) (k : α) :
    alookup (ws.foldl (fun m w => jsSet m w.1 w.2) m0) k =
      match (ws.filter (fun w => decide (w.1 = k))).getLast? with
      | some w => some w.2
      | none => alookup m0 k := by
  induction ws generalizing m0 with
  | nil => simp [alookup]
  | cons w rest ih =>
      simp only [List.foldl_cons, ih, List.filter_cons]
      by_cases hw : w.1 = k
      · rw [if_pos (by simpa using hw)]
        cases hf : rest.filter (fun w => decide (w.1 = k)) with
        | nil => simp [hf, alookup_jsSet, hw]
        | cons y ys =>
            obtain ⟨z, hz⟩ := Option.isSome_iff_exists.mp
              (List.getLast?_isSome.mpr (List.cons_ne_nil y ys))
            simp [hf, hz, List.getLast?_cons_cons]
      · rw [if_neg (by simpa using hw)]
        cases hf : (rest.filter (fun w => decide (w.1 = k))).getLast? <;>
          simp [hf, alookup_jsSet, hw]

theorem alookup_foldl_eraseKey {α β : Type} [DecidableEq α]
    (ids : List α) (m0 : List (α × β)) (k : α) :
    alookup (ids.foldl (fun m i => eraseKey m i) m0) k =
      if k ∈ ids then none else alookup m0 k := by
  induction ids generalizing m0 with
  | nil => simp
  | cons i rest ih =>
      simp only [List.foldl_cons, ih, alookup_eraseKey, List.mem_cons]
      by_cases hk : k ∈ rest
      · simp [hk]
      · by_cases hi : i = k
        · simp [hi, hk]
        · have : ¬ k = i := fun he => hi he.symm
          simp [hk, this, hi]

theorem alookup_foldl_sameValue {α β : Type} [DecidableEq α]
    (ids : List α) (v : β) (m0 : List (α × β)) (k : α) :
    alookup (ids.foldl (fun m i => jsSet m i v) m0) k =
      if k ∈ ids then some v else alookup m0 k := by
  induction ids generalizing m0 with
  | nil => simp
  | cons i rest ih =>
      simp only [List.foldl_cons, ih, alookup_jsSet, List.mem_cons]
      by_cases hk : k ∈ rest
      · simp [hk]
      · by_cases hi : i = k
        · simp [hi, hk]
        · have : ¬ k = i := fun he => hi he.symm
          simp [hk, this, hi]

theorem jsSet_keys {α β : Type} [DecidableEq α] (m : List (α × β)) (k : α)
    (v : β) :
    (jsSet m k v).map Prod.fst =
      if (alookup m k).isSome then m.map Prod.fst
      else m.map Prod.fst ++ [k] := by
  unfold jsSet
  by_cases hs : (alookup m k).isSome
  · simp only [hs, if_true, List.map_map]
    congr 1
    funext p
    by_cases h : p.1 = k <;> simp [h]
  · simp [hs]

/-! Claim C2: selectFace toggling and single-click replacement. -/

/-- C2: with additive selection (shift held or multi-select mode on),
selectFace toggles the id's membership and applying it twice restores the
selection; without it, the selection becomes empty exactly when it was the
sole selected id, and exactly that id in every other case. -/
theorem selectFace_toggle_replace (s : ModelState) (f : ℤ) (shift : Bool)
    (hnd : s.selectedFaces.Nodup) :
    ((shift || s.multiSelectMode) = true →
      (∀ x, x ∈ (selectFace f shift s).selectedFaces ↔
        (if x = f then f ∉ s.selectedFaces else x ∈ s.selectedFaces))
      ∧ (∀ x, x ∈ (selectFace f shift (selectFace f shift s)).selectedFaces ↔
          x ∈ s.selectedFaces))
    ∧ ((shift || s.multiSelectMode) = false →
      (selectFace f shift s).selectedFaces =
        (if s.selectedFaces = [f] then [] else [f])) := by
  constructor
  · intro hadd
    have hset : ∀ (l : List ℤ), l.Nodup → ∀ x,
        x ∈ (if jsHas l f then jsDelete l f else jsAdd l f) ↔
          (if x = f then f ∉ l else x ∈ l) := by
      intro l hl x
      by_cases hf : f ∈ l
      · simp only [jsHas, hf, decide_True, if_true, jsDelete]
        by_cases hx : x = f
        · subst hx
          simp [hf, List.Nodup.mem_erase_iff hl]
        · simp [hx, List.Nodup.mem_erase_iff hl]
      · simp only [jsHas, hf, decide_False, if_false, jsAdd, if_neg hf]
        by_cases hx : x = f
        · subst hx
          simp [hf]
        · simp [hx, hf]
    have h1 : (selectFace f shift s).selectedFaces =
        (if jsHas s.selectedFaces f then jsDelete s.selectedFaces f
         else jsAdd s.selectedFaces f) := by
      simp [selectFace, hadd]
    have hnd1 : (selectFace f shift s).selectedFaces.Nodup := by
      rw [h1]
      by_cases hf : f ∈ s.selectedFaces
      · simp only [jsHas, hf, decide_True, if_true, jsDelete]
        exact hnd.erase f
      · simp only [jsHas, hf, decide_False, if_false, jsAdd, if_neg hf]
        simpa [List.nodup_append] using ⟨hnd, hf⟩
    have h2 : (selectFace f shift (selectFace f shift s)).selectedFaces =
        (if jsHas (selectFace f shift s).selectedFaces f then
          jsDelete (selectFace f shift s).selectedFaces f
         else jsAdd (selectFace f shift s).selectedFaces f) := by
      have : (selectFace f shift s).multiSelectMode = s.multiSelectMode := by
        simp [selectFace]
      simp [selectFace, this, hadd]
    refine ⟨fun x => by rw [h1]; exact hset _ hnd x, fun x => ?_⟩
    rw [h2]
    rw [hset _ hnd1 x]
    by_cases hx : x = f
    · subst hx
      simp only [if_pos rfl]
      rw [h1]
      rw [hset _ hnd x]
      simp
    · simp only [if_neg hx]
      rw [h1]
      rw [hset _ hnd x]
      simp [hx]
  · intro hadd
    simp only [selectFace, hadd, Bool.false_eq_true, if_false]
    by_cases h1 : s.selectedFaces.length = 1 ∧ f ∈ s.selectedFaces
    · obtain ⟨a, ha⟩ := List.length_eq_one.mp h1.1
      have : a = f := by
        have hm := h1.2
        rw [ha] at hm
        have := List.mem_singleton.mp hm
        exact this.symm
      subst this
      simp [ha, jsHas, h1.1, h1.2]
    · have hne : ¬ s.selectedFaces = [f] := by
        intro he
        exact h1 ⟨by simp [he], by simp [he]⟩
      rcases Decidable.not_and_iff_or_not.mp h1 with h | h
      · simp [jsHas, hne, h]
      · simp [jsHas, hne, h]

/-- C2 witness: on the concrete two-element selection, additively toggling
id 2 twice restores membership of 2. -/
theorem selectFace_toggle_replace_witness :
    2 ∈ (selectFace 2 true (selectFace 2 true twoSelState)).selectedFaces ↔
      2 ∈ twoSelState.selectedFaces :=
  ((selectFace_toggle_replace twoSelState 2 true (by decide)).1 (by decide)).2 2

/-! Claim C10: setClipPlane toggling and the remote set_display path. -/

/-- C10: setClipPlane sets none when given the already-active plane and the
requested plane otherwise, always resetting offset and flip and touching
nothing else; dispatching a set_display command whose clip_plane field
carries the currently-active value disables clipping. -/
theorem setClipPlane_toggle (s : ModelState) (p : ClipPlane)
    (msg : CadCommandMessage) (hact : msg.action = "set_display")
    (hcp : msg.clip_plane = some s.clipPlane) :
    ((setClipPlane p s).clipPlane = (if s.clipPlane = p then none else p)
      ∧ (setClipPlane p s).clipOffset = 0
      ∧ (setClipPlane p s).clipFlipped = false
      ∧ (setClipPlane p s).selectedFaces = s.selectedFaces
      ∧ (setClipPlane p s).features = s.features
      ∧ (setClipPlane p s).faceToFeature = s.faceToFeature
      ∧ (setClipPlane p s).xrayMode = s.xrayMode
      ∧ (setClipPlane p s).wireframeVisible = s.wireframeVisible
      ∧ (setClipPlane p s).colorsVisible = s.colorsVisible)
    ∧ (handleCadCommand msg s).clipPlane = none := by
  constructor
  · exact ⟨rfl, rfl, rfl, rfl, rfl, rfl, rfl, rfl, rfl⟩
  · have hb : (msg.action == "set_display") = true := by
      simp [hact]
    have hb1 : (msg.action == "select_faces") = false := by
      simp [hact]
    have hb2 : (msg.action == "clear_selection") = false := by
      simp [hact]
    have hb3 : (msg.action == "create_feature") = false := by
      simp [hact]
    have hb4 : (msg.action == "delete_feature") = false := by
      simp [hact]
    simp only [handleCadCommand, hb, hb1, hb2, hb3, hb4, Bool.false_eq_true,
      if_false, if_true, hcp]
    have hx : ∀ s' : ModelState,
        ((match msg.xray with | some b => setXray b s' | none => s').clipPlane)
          = s'.clipPlane := by
      intro s'
      cases msg.xray <;> rfl
    have hx2 : ∀ s' : ModelState,
        ((match msg.xray with | some b => setXray b s' | none => s').wireframeVisible)
          = s'.wireframeVisible := by
      intro s'
      cases msg.xray <;> rfl
    cases hxv : msg.xray <;> cases hwv : msg.wireframe <;>
      cases hcv : msg.colors <;> cases hfv : msg.fit_all <;>
      simp [setXray, setWireframe, setColors, setClipPlane, fitAll] <;>
      rename_i b <;> cases b <;> simp [setXray, setWireframe, setColors,
        setClipPlane, fitAll]

/-- C10 witness: toggling the active XY clip plane off through a concrete
set_display command. -/
theorem setClipPlane_toggle_witness :
    (handleCadCommand
      ⟨"set_display", none, none, none, none, none,
        some (some PlaneKind.XY), none, none, none⟩
      (setClipPlane (some PlaneKind.XY) initialState)).clipPlane = none :=
  (setClipPlane_toggle (setClipPlane (some PlaneKind.XY) initialState)
    none ⟨"set_display", none, none, none, none, none,
      some (some PlaneKind.XY), none, none, none⟩ rfl rfl).2

/-! Claim C8: the selection-existence invariant does not hold; selectFace
performs no existence check, so a nonexistent id — passed directly or
through the select_faces dispatch — becomes a dangling selected id. -/

/-- C8: evaluation at the failing input. On a loaded model whose only face
id is 1, selecting the nonexistent id 999 (directly and via a remote
select_faces command) leaves 999 in the selection, dangling. -/
theorem selectFace_dangling_id :
    (selectFace 999 true oneFaceState).selectedFaces = [999]
    ∧ (handleCadCommand
        ⟨"select_faces", some [999], none, none, none, none, none, none,
          none, none⟩ oneFaceState).selectedFaces = [999]
    ∧ oneFaceState.facesMetadata.map FaceMetadata.id = [1] := by
  refine ⟨by decide, by decide, by decide⟩

/-! Claim C9: the store's createFeature performs no name-pattern check; the
pattern validation lives in the feature-name dialog, ahead of any store
check. -/

/-- C9 counterexample: createFeature("Bad Name") succeeds on a state with a
selected, unowned face, so the claim that the store rejects non-pattern
names is false. -/
theorem createFeature_accepts_bad_pattern :
    (createFeature "Bad Name" freshSelState).2.success = true
    ∧ isSnakeCase "Bad Name" = false := by
  refine ⟨by decide, by decide⟩

/-- C9 amended: the name-pattern validation happens in the feature-name
dialog confirm handler, which rejects a name whose trimmed value fails the
snake-case pattern without invoking the store at all — hence before the
duplicate-name and face-ownership checks. -/
theorem dialogConfirm_rejects_bad_pattern (s : ModelState) (name : String)
    (h : isSnakeCase (jsTrim name) = false) :
    (dialogConfirm name s).1 = s
    ∧ ∃ msg, (dialogConfirm name s).2 = DialogOutcome.rejected msg := by
  unfold dialogConfirm
  by_cases he : (jsTrim name == "") = true
  · rw [if_pos he]
    exact ⟨rfl, "Name is required", rfl⟩
  · rw [if_neg he, if_pos (by simp [h])]
    exact ⟨rfl, "Use snake_case (e.g., mounting_boss)", rfl⟩

/-- C9 witness: the dialog rejects the name Bad Name without touching the
concrete store state. -/
theorem dialogConfirm_rejects_bad_pattern_witness :
    (dialogConfirm "Bad Name" freshSelState).1 = freshSelState :=
  (dialogConfirm_rejects_bad_pattern freshSelState "Bad Name" (by decide)).1

/-! Claim C1: createFeature validation. The literal claim is refuted by the
JS truthiness test on reverse-index values: a face mapped to the empty
feature name is treated as unowned. -/

/-- C1 counterexample: in a reachable state face 5 is selected and mapped
in faceToFeature (to the empty name), yet createFeature succeeds. -/
theorem createFeature_misses_empty_owner :
    Reachable emptyNameState
    ∧ (alookup emptyNameState.faceToFeature 5).isSome = true
    ∧ 5 ∈ emptyNameState.selectedFaces
    ∧ (createFeature "x" emptyNameState).2.success = true := by
  refine ⟨?_, by decide, by decide, by decide⟩
  exact Reachable.step (Op.select 5 true) _
    (Reachable.step (Op.create "") _
      (Reachable.step (Op.select 5 true) _ Reachable.init))

/-- C1 amended: createFeature fails exactly when the selection is empty,
the name is already a feature, or some selected face is mapped to a truthy
(nonempty) feature name in faceToFeature; on failure the state is
unchanged; on success the selection is cleared; the ownership error names
the first offending face in selection order and its owning feature. -/
theorem createFeature_result_spec (s : ModelState) (name : String) :
    ((createFeature name s).2.success = false ↔
      (s.selectedFaces = [] ∨ (alookup s.features name).isSome = true
        ∨ ∃ fid ∈ s.selectedFaces,
            jsTruthy (alookup s.faceToFeature fid) = true))
    ∧ ((createFeature name s).2.success = false → (createFeature name s).1 = s)
    ∧ ((createFeature name s).2.success = true →
        (createFeature name s).1.selectedFaces = [])
    ∧ (∀ fid fname, s.selectedFaces ≠ [] →
        (alookup s.features name).isSome = false →
        s.selectedFaces.find?
          (fun g => jsTruthy (alookup s.faceToFeature g)) = some fid →
        alookup s.faceToFeature fid = some fname →
        (createFeature name s).2.error =
          some ("Face " ++ toString fid ++ " already assigned to \x22"
            ++ fname ++ "\x22")) := by
  by_cases h0 : s.selectedFaces.length = 0
  · have hsel : s.selectedFaces = [] := List.length_eq_zero.mp h0
    unfold createFeature
    rw [if_pos h0]
    refine ⟨iff_of_true rfl (Or.inl hsel), fun _ => rfl, ?_, ?_⟩
    · intro hc
      simp at hc
    · intro fid fname hne _ _ _
      exact absurd hsel hne
  · have hsel : s.selectedFaces ≠ [] := fun he => h0 (by simp [he])
    by_cases h1 : (alookup s.features name).isSome = true
    · unfold createFeature
      rw [if_neg h0, if_pos h1]
      refine ⟨iff_of_true rfl (Or.inr (Or.inl h1)), fun _ => rfl, ?_, ?_⟩
      · intro hc
        simp at hc
      · intro fid fname _ hno _ _
        rw [h1] at hno
        cases hno
    · cases hf : s.selectedFaces.find?
        (fun g => jsTruthy (alookup s.faceToFeature g)) with
      | some fid =>
          have hmem : fid ∈ s.selectedFaces := List.mem_of_find?_eq_some hf
          have hpred : jsTruthy (alookup s.faceToFeature fid) = true := by
            have hp := List.find?_some hf
            simpa using hp
          unfold createFeature
          rw [if_neg h0, if_neg h1, hf]
          refine ⟨iff_of_true rfl (Or.inr (Or.inr ⟨fid, hmem, hpred⟩)),
            fun _ => rfl, ?_, ?_⟩
          · intro hc
            simp at hc
          · intro fid' fname' _ _ hf' hlook
            have heq : fid = fid' := Option.some_inj.mp hf'
            subst heq
            simp [hlook]
      | none =>
          have hnone : ∀ fid ∈ s.selectedFaces,
              ¬ jsTruthy (alookup s.faceToFeature fid) = true := by
            intro fid hmem
            have hp := List.find?_eq_none.mp hf fid hmem
            simpa using hp
          unfold createFeature
          rw [if_neg h0, if_neg h1, hf]
          refine ⟨?_, ?_, fun _ => rfl, ?_⟩
          · refine iff_of_false (by simp) ?_
            rintro (hc | hc | ⟨fid, hmemc, hpredc⟩)
            · exact hsel hc
            · exact h1 hc
            · exact hnone fid hmemc hpredc
          · intro hc
            simp at hc
          · intro fid fname _ _ hf' _
            exact Option.noConfusion hf'

/-- C1 witness: on a concrete fresh selection, creating the feature boss
succeeds and clears the selection. -/
theorem createFeature_result_spec_witness :
    (createFeature "boss" freshSelState).1.selectedFaces = [] :=
  (createFeature_result_spec freshSelState "boss").2.2.1 (by decide)

/-! Claim C5: measurement for two planar faces. -/

/-- C5: for two selected planar faces, a dot product above the 0.999
threshold yields the plane distance scaled and printed to three decimals
with the unit, anything else the angle through acos of the clamped dot
value printed to two decimals. -/
theorem computeMeasurement_two_planar (acosDeg asinDeg sqrtQ : ℚ → ℚ)
    (f1 f2 : FaceMetadata) (scale : ℚ) (unit : String)
    (h1 : f1.surface_type = "planar") (h2 : f2.surface_type = "planar") :
    (|dot f1.normal f2.normal| > 999/1000 →
      computeMeasurement acosDeg asinDeg sqrtQ [f1, f2] scale unit =
        some ("Distance: "
          ++ toFixed (|dot f1.normal (sub f2.centroid f1.centroid)| * scale) 3
          ++ " " ++ unit))
    ∧ (¬ |dot f1.normal f2.normal| > 999/1000 →
      computeMeasurement acosDeg asinDeg sqrtQ [f1, f2] scale unit =
        some ("Angle: "
          ++ toFixed (acosDeg (min 1 |dot f1.normal f2.normal|)) 2
          ++ "deg")) := by
  constructor
  · intro hpar
    simp [computeMeasurement, h1, h2, hpar]
  · intro hang
    simp [computeMeasurement, h1, h2, hang]

/-- Evaluation helper for toFixed when the rounded scaled value is known. -/
theorem toFixed_eq (x : ℚ) (digits : ℕ) (n : ℤ)
    (h : Int.floor (x * (10 : ℚ) ^ digits + 1/2) = n) :
    toFixed x digits = toFixedInt n digits := by
  unfold toFixed
  rw [h]

/-- C5 witness: normals both (0,0,1), centroids (0,0,0) and (0,0,5), scale
1, unit mm give the string Distance: 5.000 mm. -/
theorem computeMeasurement_two_planar_witness :
    computeMeasurement id id id [planeFace 1 (0, 0, 0), planeFace 2 (0, 0, 5)]
      1 "mm" = some "Distance: 5.000 mm" := by
  have h := (computeMeasurement_two_planar id id id (planeFace 1 (0, 0, 0))
    (planeFace 2 (0, 0, 5)) 1 "mm" rfl rfl).1
    (by norm_num [dot, planeFace])
  rw [h]
  have hd : |dot (planeFace 1 (0, 0, 0)).normal
      (sub (planeFace 2 (0, 0, 5)).centroid (planeFace 1 (0, 0, 0)).centroid)|
        * 1 = (5 : ℚ) := by
    norm_num [dot, sub, planeFace]
  rw [hd, toFixed_eq 5 3 5000 (by rw [Int.floor_eq_iff] <;> norm_num)]
  decide

/-! Claim C6: no measurement for 0 or more than 2 selections; single
cylindrical face measurements. -/

/-- C6: the displayed measurement is none for zero or more than two
selected faces; a single cylindrical face with known radius and arc angle
reports the scaled diameter when the arc angle reaches 180 and the scaled
radius otherwise, to three decimals; any other single face, or a
cylindrical one missing radius or arc angle, yields none. -/
theorem computeMeasurement_single_face (acosDeg asinDeg sqrtQ : ℚ → ℚ)
    (s : ModelState) (f : FaceMetadata) (scale : ℚ) (unit : String) :
    (s.selectedFaces.length = 0 ∨ s.selectedFaces.length > 2 →
      measurementOf acosDeg asinDeg sqrtQ s = none)
    ∧ (∀ r a, f.surface_type = "cylindrical" → f.radius = some r →
        f.arc_angle = some a →
        computeMeasurement acosDeg asinDeg sqrtQ [f] scale unit =
          some (if a ≥ 180 then
              "Diameter: " ++ toFixed (r * 2 * scale) 3 ++ " " ++ unit
            else "Radius: " ++ toFixed (r * scale) 3 ++ " " ++ unit))
    ∧ (f.surface_type ≠ "cylindrical" ∨ f.radius = none ∨ f.arc_angle = none →
        computeMeasurement acosDeg asinDeg sqrtQ [f] scale unit = none) := by
  refine ⟨?_, ?_, ?_⟩
  · intro hlen
    cases hm : s.modelInfo with
    | none => simp [measurementOf, hm]
    | some info =>
        have hcond : (decide (s.selectedFaces.length = 0)
            || decide (s.selectedFaces.length > 2)) = true := by
          rcases hlen with h | h <;> simp [h]
        simp only [measurementOf, hm]
        rw [if_pos hcond]
  · intro r a htype hrad harc
    by_cases hge : a ≥ 180 <;> simp [computeMeasurement, htype, hrad, harc, hge]
  · intro hcase
    rcases hcase with h | h | h
    · have hb : (f.surface_type == "cylindrical") = false := by
        simp [h]
      simp [computeMeasurement, hb]
    · cases hb : (f.surface_type == "cylindrical") <;>
        simp [computeMeasurement, hb, h]
    · cases hb : (f.surface_type == "cylindrical") <;>
        cases hr : f.radius <;> simp [computeMeasurement, hb, h, hr]

/-- C6 witness: radius 3, arc angle 360, scale 1 give Diameter: 6.000 mm,
and the concrete zero-selection state measures nothing. -/
theorem computeMeasurement_single_face_witness :
    computeMeasurement id id id [cylFace] 1 "mm" = some "Diameter: 6.000 mm"
    ∧ measurementOf id id id initialState = none := by
  constructor
  · have h := (computeMeasurement_single_face id id id cylSelState cylFace 1
      "mm").2.1 3 360 rfl rfl rfl
    rw [h]
    rw [if_pos (by norm_num)]
    have hm : (3 : ℚ) * 2 * 1 = 6 := by norm_num
    rw [hm, toFixed_eq 6 3 6000 (by rw [Int.floor_eq_iff] <;> norm_num)]
    decide
  · exact (computeMeasurement_single_face id id id initialState cylFace 1
      "mm").1 (Or.inl rfl)

/-! Claim C7: sub-name generation in createFeature. -/

theorem buildTypeCounts_getD (metadata : List FaceMetadata) (ids : List ℤ)
    (m : List (String × ℕ)) (t : String) :
    (alookup (ids.foldl
      (fun m fid =>
        jsSet m (typeOfFace metadata fid)
          ((alookup m (typeOfFace metadata fid)).getD 0 + 1)) m) t).getD 0
      = (alookup m t).getD 0
        + ids.countP (fun g => typeOfFace metadata g == t) := by
  induction ids generalizing m with
  | nil => simp
  | cons fid rest ih =>
      simp only [List.foldl_cons, ih, List.countP_cons]
      by_cases h : typeOfFace metadata fid = t
      · simp only [alookup_jsSet, h, if_pos rfl, Option.getD_some]
        simp
        omega
      · have hb : (typeOfFace metadata fid == t) = false := by
          simp [h]
        simp only [alookup_jsSet, h, if_neg h, hb, cond_false]
        simp

theorem buildTypeCounts_spec (metadata : List FaceMetadata) (ids : List ℤ)
    (t : String) :
    (alookup (buildTypeCounts metadata ids) t).getD 0
      = ids.countP (fun g => typeOfFace metadata g == t) := by
  have h := buildTypeCounts_getD metadata ids [] t
  simpa [alookup] using h

theorem mkMemberStep_pos (metadata : List FaceMetadata)
    (tc : List (String × ℕ)) (acc : List (String × ℕ) × List FeatureMember)
    (fid : ℤ)
    (h : ((alookup tc (typeOfFace metadata fid)).getD 0 == 1) = true) :
    mkMemberStep metadata tc acc fid =
      (acc.1, acc.2 ++ [⟨fid, some (typeOfFace metadata fid)⟩]) := by
  unfold mkMemberStep
  rw [if_pos h]

theorem mkMemberStep_neg (metadata : List FaceMetadata)
    (tc : List (String × ℕ)) (acc : List (String × ℕ) × List FeatureMember)
    (fid : ℤ)
    (h : ¬ ((alookup tc (typeOfFace metadata fid)).getD 0 == 1) = true) :
    mkMemberStep metadata tc acc fid =
      (jsSet acc.1 (typeOfFace metadata fid)
        ((alookup acc.1 (typeOfFace metadata fid)).getD 0 + 1),
       acc.2 ++ [⟨fid, some (typeOfFace metadata fid ++ "_"
        ++ toString ((alookup acc.1 (typeOfFace metadata fid)).getD 0 + 1))⟩]) := by
  unfold mkMemberStep
  rw [if_neg h]

theorem mkMembersLoop_spec (metadata : List FaceMetadata)
    (tc : List (String × ℕ)) (suf pre : List ℤ) (ti : List (String × ℕ))
    (ms : List FeatureMember)
    (hti : ∀ t, (alookup tc t).getD 0 ≠ 1 →
      (alookup ti t).getD 0 =
        pre.countP (fun g => typeOfFace metadata g == t)) :
    (suf.foldl (mkMemberStep metadata tc) (ti, ms)).2 =
      ms ++ membersSpec metadata tc pre suf := by
  induction suf generalizing pre ti ms with
  | nil => simp [membersSpec]
  | cons fid rest ih =>
      simp only [List.foldl_cons, membersSpec]
      by_cases h : ((alookup tc (typeOfFace metadata fid)).getD 0 == 1) = true
      · rw [mkMemberStep_pos metadata tc (ti, ms) fid h]
        dsimp only
        have hrec := ih (pre ++ [fid]) ti
          (ms ++ [⟨fid, some (typeOfFace metadata fid)⟩]) (by
            intro t ht
            rw [hti t ht, List.countP_append]
            have hne : typeOfFace metadata fid ≠ t := by
              intro he
              rw [he] at h
              simp at h
              exact ht h
            simp [hne])
        rw [hrec]
        simp only [subNameSpec, h, if_true]
        simp
      · rw [mkMemberStep_neg metadata tc (ti, ms) fid h]
        dsimp only
        have hne1 : (alookup tc (typeOfFace metadata fid)).getD 0 ≠ 1 := by
          intro he
          simp [he] at h
        have hidx : (alookup ti (typeOfFace metadata fid)).getD 0 + 1 =
            pre.countP (fun g => typeOfFace metadata g ==
              typeOfFace metadata fid) + 1 := by
          rw [hti _ hne1]
        have hrec := ih (pre ++ [fid])
          (jsSet ti (typeOfFace metadata fid)
            ((alookup ti (typeOfFace metadata fid)).getD 0 + 1))
          (ms ++ [⟨fid, some (typeOfFace metadata fid ++ "_"
            ++ toString ((alookup ti (typeOfFace metadata fid)).getD 0 + 1))⟩])
          (by
            intro t ht
            rw [alookup_jsSet]
            by_cases he : typeOfFace metadata fid = t
            · rw [if_pos he, Option.getD_some, List.countP_append]
              rw [← he, hti _ hne1]
              simp
            · rw [if_neg he, hti t ht, List.countP_append]
              simp [he])
        rw [hrec]
        simp only [subNameSpec, h, Bool.false_eq_true, if_false, hidx]
        simp

theorem membersSpec_map_face_id (metadata : List FaceMetadata)
    (tc : List (String × ℕ)) (suf pre : List ℤ) :
    (membersSpec metadata tc pre suf).map FeatureMember.face_id = suf := by
  induction suf generalizing pre with
  | nil => simp [membersSpec]
  | cons fid rest ih =>
      simp only [membersSpec, List.map_cons, ih]
      unfold subNameSpec
      by_cases h : ((alookup tc (typeOfFace metadata fid)).getD 0 == 1) = true
        <;> simp [h]

theorem membersSpec_length (metadata : List FaceMetadata)
    (tc : List (String × ℕ)) (suf pre : List ℤ) :
    (membersSpec metadata tc pre suf).length = suf.length := by
  have h := membersSpec_map_face_id metadata tc suf pre
  calc (membersSpec metadata tc pre suf).length
      = ((membersSpec metadata tc pre suf).map FeatureMember.face_id).length :=
        (List.length_map _ _).symm
    _ = suf.length := by rw [h]

theorem membersSpec_getD (metadata : List FaceMetadata)
    (tc : List (String × ℕ)) (suf pre : List ℤ) (i : ℕ)
    (h : i < suf.length) :
    (membersSpec metadata tc pre suf).getD i ⟨0, none⟩ =
      subNameSpec metadata tc (pre ++ suf.take i) (suf.getD i 0) := by
  induction suf generalizing pre i with
  | nil => simp at h
  | cons fid rest ih =>
      cases i with
      | zero => simp [membersSpec]
      | succ j =>
          have hj : j < rest.length := by
            simpa using h
          simp only [membersSpec, List.getD_cons_succ, ih (pre ++ [fid]) j hj,
            List.take_succ_cons]
          rw [List.append_assoc]
          rfl

theorem mkMembers_eq_spec (metadata : List FaceMetadata) (ids : List ℤ)
    (h : ids.length ≠ 1) :
    mkMembers metadata ids =
      membersSpec metadata (buildTypeCounts metadata ids) [] ids := by
  unfold mkMembers
  rw [if_neg h]
  unfold mkMembersLoop
  have hs := mkMembersLoop_spec metadata (buildTypeCounts metadata ids) ids
    [] [] [] (by intro t _; simp [alookup])
  simpa using hs

theorem mkMembers_map_face_id (metadata : List FaceMetadata) (ids : List ℤ) :
    (mkMembers metadata ids).map FeatureMember.face_id = ids := by
  by_cases h : ids.length = 1
  · obtain ⟨a, ha⟩ := List.length_eq_one.mp h
    subst ha
    simp [mkMembers]
  · rw [mkMembers_eq_spec metadata ids h]
    exact membersSpec_map_face_id metadata _ ids []

/-- C7: when createFeature succeeds, the created feature's members carry
the sorted selected face ids in ascending order; a sole member has no
sub-name; with several members, a face whose type occurs once gets the bare
type string and a face whose type occurs N of times gets type_i with i one
more than the number of same-type faces earlier in the ascending order. -/
theorem createFeature_subNames (s : ModelState) (name : String)
    (feat : Feature)
    (hsucc : (createFeature name s).2.success = true)
    (hfeat : alookup (createFeature name s).1.features name = some feat) :
    feat.faces.map FeatureMember.face_id = sortAsc s.selectedFaces
    ∧ List.Sorted (· ≤ ·) (sortAsc s.selectedFaces)
    ∧ (s.selectedFaces.length = 1 → ∀ mem ∈ feat.faces, mem.sub_name = none)
    ∧ (s.selectedFaces.length ≠ 1 →
        ∀ i, i < (sortAsc s.selectedFaces).length →
          (feat.faces.getD i ⟨0, none⟩).sub_name =
            some (
              let ids := sortAsc s.selectedFaces
              let t := typeOfFace s.facesMetadata (ids.getD i 0)
              if ids.countP (fun g => typeOfFace s.facesMetadata g == t) = 1
              then t
              else t ++ "_" ++ toString
                ((ids.take i).countP
                  (fun g => typeOfFace s.facesMetadata g == t) + 1))) := by
  by_cases h0 : s.selectedFaces.length = 0
  · unfold createFeature at hsucc
    rw [if_pos h0] at hsucc
    cases hsucc
  by_cases h1 : (alookup s.features name).isSome = true
  · unfold createFeature at hsucc
    rw [if_neg h0, if_pos h1] at hsucc
    cases hsucc
  cases hf : s.selectedFaces.find?
      (fun g => jsTruthy (alookup s.faceToFeature g)) with
  | some fid =>
      unfold createFeature at hsucc
      rw [if_neg h0, if_neg h1, hf] at hsucc
      cases hsucc
  | none =>
      unfold createFeature at hfeat
      rw [if_neg h0, if_neg h1, hf] at hfeat
      rw [alookup_jsSet] at hfeat
      rw [if_pos rfl] at hfeat
      have hfaces : feat.faces = mkMembers s.facesMetadata
          (sortAsc s.selectedFaces) := by
        cases hfeat
        rfl
      have hlen : (sortAsc s.selectedFaces).length =
          s.selectedFaces.length := by
        unfold sortAsc
        exact (List.perm_insertionSort _ _).length_eq
      refine ⟨?_, ?_, ?_, ?_⟩
      · rw [hfaces]
        exact mkMembers_map_face_id _ _
      · unfold sortAsc
        exact List.sorted_insertionSort _ _
      · intro hone mem hmem
        rw [hfaces] at hmem
        unfold mkMembers at hmem
        rw [if_pos (by rw [hlen]; exact hone)] at hmem
        rcases List.mem_singleton.mp hmem with rfl
        rfl
      · intro hne i hi
        have hne' : (sortAsc s.selectedFaces).length ≠ 1 := by
          rw [hlen]
          exact hne
        rw [hfaces, mkMembers_eq_spec _ _ hne', membersSpec_getD _ _ _ _ i hi]
        simp only [subNameSpec]
        rw [buildTypeCounts_spec]
        by_cases hc : (sortAsc s.selectedFaces).countP
            (fun g => typeOfFace s.facesMetadata g ==
              typeOfFace s.facesMetadata ((sortAsc s.selectedFaces).getD i 0))
            = 1
        · rw [if_pos (by simpa using hc), if_pos hc]
        · rw [if_neg (by simpa using hc), if_neg hc]
          simp

/-- C7 witness: selection 3, 1, 2 with two planar faces and one cylindrical
face yields members 1, 2, 3 sub-named planar_1, cylindrical, planar_2. -/
theorem createFeature_subNames_witness :
    ((createFeature "grp" mixedSelState).1.features.map
      (fun p => (p.1, p.2.faces))) =
        [("grp", [⟨1, some "planar_1"⟩, ⟨2, some "cylindrical"⟩,
          ⟨3, some "planar_2"⟩])]
    ∧ (∀ feat, alookup (createFeature "grp" mixedSelState).1.features "grp"
        = some feat →
        feat.faces.map FeatureMember.face_id =
          sortAsc mixedSelState.selectedFaces) := by
  constructor
  · rfl
  · intro feat hfeat
    exact (createFeature_subNames mixedSelState "grp" feat (by rfl) hfeat).1

/-! Claim C3: features and faceToFeature consistency. The literal claim is
refuted through the empty feature name (no store check prevents it and the
JS truthiness ownership test never sees it); the restricted claim is proved
as an inductive invariant. -/

/-- C3 counterexample: a state reachable through selectFace and
createFeature in which face 5 sits in the member lists of the two distinct
features named by the empty string and x, so the claimed consistency fails
on a reachable state. -/
theorem reachable_breaks_consistency :
    Reachable doubleOwnState ∧ ¬ Consistent doubleOwnState := by
  constructor
  · exact Reachable.step (Op.create "x") _
      (Reachable.step (Op.select 5 true) _
        (Reachable.step (Op.create "") _
          (Reachable.step (Op.select 5 true) _ Reachable.init)))
  · intro hcon
    have h1 : alookup doubleOwnState.features "" =
        some ⟨(9/10, 3/10, 3/10), [⟨5, none⟩]⟩ := rfl
    have h2 : alookup doubleOwnState.features "x" =
        some ⟨(3/10, 8/10, 3/10), [⟨5, none⟩]⟩ := rfl
    have h5 : (5 : ℤ) ∈ MemberIds ⟨(9/10, 3/10, 3/10), [⟨5, none⟩]⟩ := by
      simp [MemberIds]
    have h5' : (5 : ℤ) ∈ MemberIds ⟨(3/10, 8/10, 3/10), [⟨5, none⟩]⟩ := by
      simp [MemberIds]
    have hcontra := hcon.2 "" "x" _ _ 5 h1 h2 h5 h5'
    exact absurd hcontra (by decide)

theorem alookup_members_fold (members : List FeatureMember) (name : String)
    (m0 : List (ℤ × String)) (f : ℤ) :
    alookup (members.foldl (fun m mem => jsSet m mem.face_id name) m0) f =
      if f ∈ members.map FeatureMember.face_id then some name
      else alookup m0 f := by
  have hmap : members.foldl (fun m mem => jsSet m mem.face_id name) m0 =
      (members.map FeatureMember.face_id).foldl
        (fun m i => jsSet m i name) m0 :=
    (List.foldl_map FeatureMember.face_id (fun m i => jsSet m i name)
      members m0).symm
  rw [hmap]
  exact alookup_foldl_sameValue _ _ _ _

theorem alookup_members_erase (members : List FeatureMember)
    (m0 : List (ℤ × String)) (f : ℤ) :
    alookup (members.foldl (fun m mem => eraseKey m mem.face_id) m0) f =
      if f ∈ members.map FeatureMember.face_id then none
      else alookup m0 f := by
  have hmap : members.foldl (fun m mem => eraseKey m mem.face_id) m0 =
      (members.map FeatureMember.face_id).foldl
        (fun m i => eraseKey m i) m0 :=
    (List.foldl_map FeatureMember.face_id (fun m i => eraseKey m i)
      members m0).symm
  rw [hmap]
  exact alookup_foldl_eraseKey _ _ _

/-- Inv reads only the features map and the reverse index. -/
theorem Inv_of_fields {s s' : ModelState} (hf : s'.features = s.features)
    (hm : s'.faceToFeature = s.faceToFeature) (h : Inv s) : Inv s' := by
  constructor
  · intro n hn
    rw [hf] at hn
    exact h.1 n hn
  · intro f n
    rw [hf, hm]
    exact h.2 f n

theorem Inv_initialState : Inv initialState := by
  constructor
  · intro n hn
    simp [initialState] at hn
  · intro f n
    simp [initialState, alookup]

theorem Inv_empty_maps (s : ModelState) (hf : s.features = [])
    (hm : s.faceToFeature = []) : Inv s := by
  constructor
  · intro n hn
    simp [hf] at hn
  · intro f n
    simp [hf, hm, alookup]

theorem Inv_createFeature (s : ModelState) (name : String)
    (hname : name ≠ "") (h : Inv s) : Inv (createFeature name s).1 := by
  by_cases h0 : s.selectedFaces.length = 0
  · unfold createFeature
    rw [if_pos h0]
    exact h
  by_cases h1 : (alookup s.features name).isSome = true
  · unfold createFeature
    rw [if_neg h0, if_pos h1]
    exact h
  cases hf : s.selectedFaces.find?
      (fun g => jsTruthy (alookup s.faceToFeature g)) with
  | some fid =>
      unfold createFeature
      rw [if_neg h0, if_neg h1, hf]
      exact h
  | none =>
      have hNone : ∀ fid ∈ s.selectedFaces,
          alookup s.faceToFeature fid = none := by
        intro fid hm
        have hp := List.find?_eq_none.mp hf fid hm
        cases ho : alookup s.faceToFeature fid with
        | none => rfl
        | some v =>
            have hv : v = "" := by
              by_contra hvne
              apply hp
              simp [jsTruthy, ho, hvne]
            subst hv
            obtain ⟨feat, hlook, _⟩ := (h.2 fid "").mp ho
            have hk : ("" : String) ∈ s.features.map Prod.fst := by
              have := mem_of_alookup_eq_some hlook
              exact List.mem_map.mpr ⟨("", feat), this, rfl⟩
            exact absurd rfl (h.1 "" hk)
      have hlookname : alookup s.features name = none := by
        cases hl : alookup s.features name with
        | none => rfl
        | some v => rw [hl] at h1; simp at h1
      unfold createFeature
      rw [if_neg h0, if_neg h1, hf]
      have hids : (mkMembers s.facesMetadata
          (sortAsc s.selectedFaces)).map FeatureMember.face_id =
            sortAsc s.selectedFaces := mkMembers_map_face_id _ _
      have hmemsel : ∀ f : ℤ,
          f ∈ sortAsc s.selectedFaces ↔ f ∈ s.selectedFaces := by
        intro f
        unfold sortAsc
        exact (List.perm_insertionSort _ _).mem_iff
      constructor
      · intro n hn
        rw [jsSet_keys] at hn
        rw [hlookname] at hn
        simp only [Option.isSome_none, Bool.false_eq_true, if_false] at hn
        rcases List.mem_append.mp hn with hn | hn
        · exact h.1 n hn
        · rcases List.mem_singleton.mp hn with rfl
          exact hname
      · intro f n
        dsimp only
        rw [alookup_members_fold, alookup_jsSet, hids]
        by_cases hfm : f ∈ sortAsc s.selectedFaces
        · rw [if_pos hfm]
          constructor
          · intro he
            rcases Option.some_inj.mp he with rfl
            rw [if_pos rfl]
            exact ⟨_, rfl, by rw [MemberIds, hids]; exact hfm⟩
          · rintro ⟨feat, hlook, hfmem⟩
            by_cases hn : name = n
            · subst hn
              rfl
            · rw [if_neg hn] at hlook
              have := (h.2 f n).mpr ⟨feat, hlook, hfmem⟩
              rw [hNone f ((hmemsel f).mp hfm)] at this
              cases this
        · rw [if_neg hfm]
          constructor
          · intro he
            obtain ⟨feat, hlook, hfmem⟩ := (h.2 f n).mp he
            refine ⟨feat, ?_, hfmem⟩
            by_cases hn : name = n
            · subst hn
              rw [hlookname] at hlook
              cases hlook
            · rw [if_neg hn]
              exact hlook
          · rintro ⟨feat, hlook, hfmem⟩
            by_cases hn : name = n
            · subst hn
              rw [if_pos rfl] at hlook
              rcases Option.some_inj.mp hlook with rfl
              rw [MemberIds] at hfmem
              dsimp only at hfmem
              rw [hids] at hfmem
              exact absurd hfmem hfm
            · rw [if_neg hn] at hlook
              exact (h.2 f n).mpr ⟨feat, hlook, hfmem⟩

theorem Inv_deleteFeature (s : ModelState) (name : String) (h : Inv s) :
    Inv (deleteFeature name s) := by
  unfold deleteFeature
  cases hl : alookup s.features name with
  | none => exact h
  | some feature =>
      constructor
      · intro n hn
        dsimp only at hn
        have hsub : n ∈ s.features.map Prod.fst := by
          rcases List.mem_map.mp hn with ⟨p, hp, rfl⟩
          exact List.mem_map.mpr ⟨p, List.mem_of_mem_filter hp, rfl⟩
        exact h.1 n hsub
      · intro f n
        dsimp only
        rw [alookup_members_erase, alookup_eraseKey]
        by_cases hfm : f ∈ feature.faces.map FeatureMember.face_id
        · rw [if_pos hfm]
          constructor
          · intro he
            cases he
          · rintro ⟨feat, hlook, hfmem⟩
            by_cases hn : name = n
            · subst hn
              rw [if_pos rfl] at hlook
              cases hlook
            · rw [if_neg hn] at hlook
              have h2 := (h.2 f n).mpr ⟨feat, hlook, hfmem⟩
              have h3 := (h.2 f name).mpr ⟨feature, hl, hfm⟩
              rw [h2] at h3
              rcases Option.some_inj.mp h3 with rfl
              exact absurd rfl hn
        · rw [if_neg hfm]
          constructor
          · intro he
            obtain ⟨feat, hlook, hfmem⟩ := (h.2 f n).mp he
            by_cases hn : name = n
            · subst hn
              rw [hl] at hlook
              rcases Option.some_inj.mp hlook with rfl
              exact absurd hfmem hfm
            · exact ⟨feat, by rw [if_neg hn]; exact hlook, hfmem⟩
          · rintro ⟨feat, hlook, hfmem⟩
            by_cases hn : name = n
            · rw [if_pos hn] at hlook
              cases hlook
            · rw [if_neg hn] at hlook
              exact (h.2 f n).mpr ⟨feat, hlook, hfmem⟩

theorem mem_of_getLast?_eq_some {α : Type} {l : List α} {a : α}
    (h : l.getLast? = some a) : a ∈ l := by
  obtain ⟨hne, heq⟩ := List.mem_getLast?_eq_getLast
    (show a ∈ l.getLast? from Option.mem_def.mpr h)
  rw [heq]
  exact List.getLast_mem hne

theorem buildFeatureGroups_concat (faces : List FaceMetadata)
    (face : FaceMetadata) :
    buildFeatureGroups (faces ++ [face]) =
      groupInsert (buildFeatureGroups faces) face := by
  unfold buildFeatureGroups
  rw [List.foldl_concat]

theorem buildFeatureGroups_lookup (faces : List FaceMetadata) (n : String) :
    alookup (buildFeatureGroups faces) n =
      if membersOfName faces n = [] then none
      else some (membersOfName faces n) := by
  induction faces using List.reverseRecOn with
  | nil => simp [buildFeatureGroups, membersOfName, alookup]
  | append_singleton l face ih =>
      rw [buildFeatureGroups_concat]
      have hmem : membersOfName (l ++ [face]) n =
          membersOfName l n ++ membersOfName [face] n := by
        unfold membersOfName
        rw [List.filterMap_append]
      rw [hmem]
      unfold groupInsert
      cases hsn : face.step_name with
      | none =>
          dsimp only
          have hc : membersOfName [face] n = [] := by
            simp [membersOfName, hsn]
          rw [hc, List.append_nil, ih]
      | some sn =>
          dsimp only
          by_cases h1 : (sn == "") = true
          · rw [if_pos h1]
            have hsneq : sn = "" := by simpa using h1
            have hc : membersOfName [face] n = [] := by
              simp [membersOfName, hsn, hsneq]
            rw [hc, List.append_nil, ih]
          · rw [if_neg h1]
            by_cases h2 : ((splitStepName sn).1 == n) = true
            · have heqn : (splitStepName sn).1 = n := by
                simpa using h2
              have hc : membersOfName [face] n =
                  [⟨face.id, (splitStepName sn).2⟩] := by
                simp only [membersOfName, List.filterMap_cons, hsn,
                  List.filterMap_nil]
                rw [if_neg h1, if_pos h2]
              rw [hc]
              cases hl : alookup (buildFeatureGroups l) (splitStepName sn).1 with
              | some ms =>
                  rw [heqn] at hl
                  rw [ih] at hl
                  by_cases hnil : membersOfName l n = []
                  · rw [if_pos hnil] at hl
                    cases hl
                  · rw [if_neg hnil] at hl
                    rcases Option.some_inj.mp hl with rfl
                    rw [alookup_jsSet, if_pos heqn]
                    rw [if_neg (by simp)]
              | none =>
                  rw [heqn] at hl
                  rw [ih] at hl
                  by_cases hnil : membersOfName l n = []
                  · rw [alookup_jsSet, if_pos heqn, hnil]
                    rw [if_neg (by simp)]
                    simp
                  · rw [if_neg hnil] at hl
                    cases hl
            · have hneqn : (splitStepName sn).1 ≠ n := by
                simpa using h2
              have hc : membersOfName [face] n = [] := by
                simp only [membersOfName, List.filterMap_cons, hsn,
                  List.filterMap_nil]
                rw [if_neg h1, if_neg h2]
              rw [hc, List.append_nil]
              cases hl : alookup (buildFeatureGroups l) (splitStepName sn).1 with
              | some ms =>
                  rw [alookup_jsSet, if_neg hneqn, ih]
              | none =>
                  rw [alookup_jsSet, if_neg hneqn, ih]

theorem buildFeatureGroups_keys_nodup (faces : List FaceMetadata) :
    ((buildFeatureGroups faces).map Prod.fst).Nodup := by
  induction faces using List.reverseRecOn with
  | nil => simp [buildFeatureGroups]
  | append_singleton l face ih =>
      rw [buildFeatureGroups_concat]
      unfold groupInsert
      cases hsn : face.step_name with
      | none => exact ih
      | some sn =>
          dsimp only
          by_cases h1 : (sn == "") = true
          · rw [if_pos h1]
            exact ih
          · rw [if_neg h1]
            cases hl : alookup (buildFeatureGroups l) (splitStepName sn).1 with
            | some ms =>
                rw [jsSet_keys, if_pos (by rw [hl]; rfl)]
                exact ih
            | none =>
                rw [jsSet_keys, if_neg (by rw [hl]; simp)]
                have hnotmem : (splitStepName sn).1 ∉
                    (buildFeatureGroups l).map Prod.fst :=
                  (alookup_eq_none_iff _ _).mp hl
                exact ih.append (List.nodup_singleton _)
                  (List.disjoint_singleton.mpr hnotmem)

theorem gtf_fold_not_mem (groups : List (String × List FeatureMember))
    (acc : List (String × Feature) × List (ℤ × String) × ℕ) (n : String)
    (hn : n ∉ groups.map Prod.fst) :
    alookup (groups.foldl groupStep acc).1 n = alookup acc.1 n := by
  induction groups generalizing acc with
  | nil => rfl
  | cons g rest ih =>
      simp only [List.map_cons, List.mem_cons] at hn
      push_neg at hn
      simp only [List.foldl_cons]
      rw [ih _ hn.2]
      unfold groupStep
      dsimp only
      rw [alookup_jsSet, if_neg (fun he => hn.1 he.symm)]

theorem gtf_fold_fst (groups : List (String × List FeatureMember))
    (acc : List (String × Feature) × List (ℤ × String) × ℕ) (n : String)
    (hnd : (groups.map Prod.fst).Nodup) :
    Option.map Feature.faces (alookup (groups.foldl groupStep acc).1 n) =
      match alookup groups n with
      | some ms => some ms
      | none => Option.map Feature.faces (alookup acc.1 n) := by
  induction groups generalizing acc with
  | nil => simp [alookup]
  | cons g rest ih =>
      simp only [List.map_cons, List.nodup_cons] at hnd
      simp only [List.foldl_cons]
      by_cases hn : g.1 = n
      · subst hn
        have hnm : g.1 ∉ rest.map Prod.fst := hnd.1
        rw [gtf_fold_not_mem rest _ g.1 hnm]
        unfold groupStep
        dsimp only
        rw [alookup_jsSet, if_pos rfl]
        simp [alookup]
      · rw [ih _ hnd.2]
        have hlk : alookup ((g :: rest) : List (String × List FeatureMember)) n
            = alookup rest n := by
          simp [alookup, hn]
        rw [hlk]
        cases alookup rest n with
        | some ms => rfl
        | none =>
            unfold groupStep
            dsimp only
            rw [alookup_jsSet, if_neg hn]

theorem gtf_fold_snd (groups : List (String × List FeatureMember))
    (acc : List (String × Feature) × List (ℤ × String) × ℕ) :
    (groups.foldl groupStep acc).2.1 =
      ((groups.map (fun g => g.2.map (fun mem => (mem.face_id, g.1)))).flatten).foldl
        (fun m w => jsSet m w.1 w.2) acc.2.1 := by
  induction groups generalizing acc with
  | nil => rfl
  | cons g rest ih =>
      simp only [List.foldl_cons, List.map_cons, List.flatten_cons]
      rw [ih]
      rw [List.foldl_append]
      congr 1
      unfold groupStep
      dsimp only
      have hmap : g.2.foldl (fun m mem => jsSet m mem.face_id g.1) acc.2.1 =
          (g.2.map (fun mem => (mem.face_id, g.1))).foldl
            (fun m w => jsSet m w.1 w.2) acc.2.1 := by
        rw [List.foldl_map (fun mem => (mem.face_id, g.1))
          (fun m w => jsSet m w.1 w.2) g.2 acc.2.1]
      exact hmap

theorem mem_membersOfName (faces : List FaceMetadata) (n : String) (f : ℤ) :
    f ∈ (membersOfName faces n).map FeatureMember.face_id ↔
      ∃ face ∈ faces, ∃ sn, face.step_name = some sn ∧ (sn == "") = false
        ∧ ((splitStepName sn).1 == n) = true ∧ face.id = f := by
  simp only [membersOfName, List.mem_map, List.mem_filterMap]
  constructor
  · rintro ⟨mem, ⟨face, hface, hg⟩, hid⟩
    cases hsn : face.step_name with
    | none =>
        rw [hsn] at hg
        cases hg
    | some sn =>
        rw [hsn] at hg
        dsimp only at hg
        by_cases h1 : (sn == "") = true
        · rw [if_pos h1] at hg
          cases hg
        · rw [if_neg h1] at hg
          by_cases h2 : ((splitStepName sn).1 == n) = true
          · rw [if_pos h2] at hg
            rcases Option.some_inj.mp hg with rfl
            exact ⟨face, hface, sn, hsn, by simpa using h1, h2, hid⟩
          · rw [if_neg h2] at hg
            cases hg
  · rintro ⟨face, hface, sn, hsn, h1, h2, hid⟩
    refine ⟨⟨face.id, (splitStepName sn).2⟩, ⟨face, hface, ?_⟩, hid⟩
    rw [hsn]
    dsimp only
    rw [if_neg (by simp [h1]), if_pos h2]

theorem membersOfName_name_unique (faces : List FaceMetadata)
    (hnd : (faces.map FaceMetadata.id).Nodup) (f : ℤ) (n1 n2 : String)
    (h1 : f ∈ (membersOfName faces n1).map FeatureMember.face_id)
    (h2 : f ∈ (membersOfName faces n2).map FeatureMember.face_id) :
    n1 = n2 := by
  obtain ⟨face1, hface1, sn1, hsn1, hne1, hsp1, hid1⟩ :=
    (mem_membersOfName faces n1 f).mp h1
  obtain ⟨face2, hface2, sn2, hsn2, hne2, hsp2, hid2⟩ :=
    (mem_membersOfName faces n2 f).mp h2
  have hfe : face1 = face2 :=
    List.inj_on_of_nodup_map hnd hface1 hface2 (by rw [hid1, hid2])
  subst hfe
  rw [hsn1] at hsn2
  rcases Option.some_inj.mp hsn2 with rfl
  have e1 : (splitStepName sn1).1 = n1 := by simpa using hsp1
  have e2 : (splitStepName sn1).1 = n2 := by simpa using hsp2
  rw [e1] at e2
  exact e2

theorem writes_mem_iff (groups : List (String × List FeatureMember))
    (f : ℤ) (n : String) :
    ((f, n) ∈
      (groups.map (fun g => g.2.map (fun mem => (mem.face_id, g.1)))).flatten)
    ↔ ∃ ms, (n, ms) ∈ groups ∧ f ∈ ms.map FeatureMember.face_id := by
  constructor
  · intro h
    obtain ⟨l, hl, hmem⟩ := List.mem_flatten.mp h
    obtain ⟨g, hg, rfl⟩ := List.mem_map.mp hl
    obtain ⟨mem, hmem2, heq⟩ := List.mem_map.mp hmem
    have hf : mem.face_id = f := congrArg Prod.fst heq
    have hn : g.1 = n := congrArg Prod.snd heq
    exact ⟨g.2, by rw [← hn]; exact hg, List.mem_map.mpr ⟨mem, hmem2, hf⟩⟩
  · rintro ⟨ms, hg, hmem⟩
    obtain ⟨mem, hmem2, hf⟩ := List.mem_map.mp hmem
    refine List.mem_flatten.mpr ⟨ms.map (fun mem => (mem.face_id, n)),
      List.mem_map.mpr ⟨(n, ms), hg, rfl⟩, ?_⟩
    exact List.mem_map.mpr ⟨mem, hmem2, by rw [hf]⟩

theorem Inv_loadModel (md : MeshData) (faces : List FaceMetadata)
    (info : ModelInfo) (filename : String) (s : ModelState)
    (hgood : GoodFaces faces) :
    Inv (loadModel md faces info filename s) := by
  have hnd := buildFeatureGroups_keys_nodup faces
  have hfstlook : ∀ n,
      Option.map Feature.faces
        (alookup (loadModel md faces info filename s).features n) =
      alookup (buildFeatureGroups faces) n := by
    intro n
    have h := gtf_fold_fst (buildFeatureGroups faces) ([], [], 0) n hnd
    cases hg : alookup (buildFeatureGroups faces) n with
    | some ms =>
        rw [hg] at h
        exact h
    | none =>
        rw [hg] at h
        simpa [alookup] using h
  have hsndlook : ∀ f,
      alookup (loadModel md faces info filename s).faceToFeature f =
        match (((buildFeatureGroups faces).map
            (fun g => g.2.map (fun mem => (mem.face_id, g.1)))).flatten.filter
              (fun w => decide (w.1 = f))).getLast? with
        | some w => some w.2
        | none => none := by
    intro f
    have hc : (loadModel md faces info filename s).faceToFeature =
        ((buildFeatureGroups faces).foldl groupStep ([], [], 0)).2.1 := rfl
    rw [hc, gtf_fold_snd, alookup_foldl_writes]
    cases (((buildFeatureGroups faces).map
        (fun g => g.2.map (fun mem => (mem.face_id, g.1)))).flatten.filter
          (fun w => decide (w.1 = f))).getLast? with
    | some w => rfl
    | none => rfl
  have hA : ∀ (f : ℤ) (n : String),
      ((f, n) ∈ ((buildFeatureGroups faces).map
        (fun g => g.2.map (fun mem => (mem.face_id, g.1)))).flatten) ↔
      (membersOfName faces n ≠ [] ∧
        f ∈ (membersOfName faces n).map FeatureMember.face_id) := by
    intro f n
    rw [writes_mem_iff]
    constructor
    · rintro ⟨ms, hg, hmem⟩
      have hl : alookup (buildFeatureGroups faces) n = some ms :=
        alookup_eq_some_of_mem hnd hg
      rw [buildFeatureGroups_lookup] at hl
      by_cases hnil : membersOfName faces n = []
      · rw [if_pos hnil] at hl
        cases hl
      · rw [if_neg hnil] at hl
        rcases Option.some_inj.mp hl with rfl
        exact ⟨hnil, hmem⟩
    · rintro ⟨hnil, hmem⟩
      refine ⟨membersOfName faces n, ?_, hmem⟩
      apply mem_of_alookup_eq_some
      rw [buildFeatureGroups_lookup, if_neg hnil]
  constructor
  · intro n hn
    have hlk : alookup (loadModel md faces info filename s).features n
        ≠ none := by
      intro hnone
      rw [alookup_eq_none_iff] at hnone
      exact hnone (by simpa using hn)
    cases hl : alookup (loadModel md faces info filename s).features n with
    | none => exact absurd hl hlk
    | some feat =>
        have hg := hfstlook n
        rw [hl] at hg
        have hgl : alookup (buildFeatureGroups faces) n = some feat.faces :=
          hg.symm ▸ rfl
        rw [buildFeatureGroups_lookup] at hgl
        by_cases hnil : membersOfName faces n = []
        · rw [if_pos hnil] at hgl
          cases hgl
        · obtain ⟨mem, hmem⟩ := List.exists_mem_of_ne_nil _ hnil
          have hmm : mem.face_id ∈
              (membersOfName faces n).map FeatureMember.face_id :=
            List.mem_map.mpr ⟨mem, hmem, rfl⟩
          obtain ⟨face, hface, sn, hsn, h1, h2, _⟩ :=
            (mem_membersOfName faces n mem.face_id).mp hmm
          have hgf := hgood.2 face hface
          rw [hsn] at hgf
          have hsne : sn ≠ "" := by simpa using h1
          have hsp : (splitStepName sn).1 = n := by simpa using h2
          rw [← hsp]
          exact hgf hsne
  · intro f n
    rw [hsndlook f]
    constructor
    · intro he
      cases hlast : (((buildFeatureGroups faces).map
          (fun g => g.2.map (fun mem => (mem.face_id, g.1)))).flatten.filter
            (fun w => decide (w.1 = f))).getLast? with
      | none =>
          rw [hlast] at he
          dsimp only at he
          cases he
      | some w =>
          rw [hlast] at he
          dsimp only at he
          have hw2 : w.2 = n := Option.some_inj.mp he
          have hwmem := mem_of_getLast?_eq_some hlast
          have hwW := (List.mem_filter.mp hwmem).1
          have hwf : w.1 = f := by
            have := (List.mem_filter.mp hwmem).2
            simpa using this
          have hWfn : ((f, n) : ℤ × String) ∈
              ((buildFeatureGroups faces).map
                (fun g => g.2.map (fun mem => (mem.face_id, g.1)))).flatten := by
            have hpair : w = (f, n) := by
              cases w
              simp only at hwf hw2
              rw [hwf, hw2]
            rw [← hpair]
            exact hwW
          obtain ⟨hnil, hmem⟩ := (hA f n).mp hWfn
          have hgl : alookup (buildFeatureGroups faces) n =
              some (membersOfName faces n) := by
            rw [buildFeatureGroups_lookup, if_neg hnil]
          have hg := hfstlook n
          rw [hgl] at hg
          obtain ⟨feat, hfl, hff⟩ := Option.map_eq_some'.mp hg
          refine ⟨feat, hfl, ?_⟩
          rw [MemberIds, hff]
          exact hmem
    · rintro ⟨feat, hfl, hfm⟩
      have hg := hfstlook n
      rw [hfl] at hg
      have hgl : alookup (buildFeatureGroups faces) n = some feat.faces :=
        hg.symm ▸ rfl
      rw [buildFeatureGroups_lookup] at hgl
      by_cases hnil : membersOfName faces n = []
      · rw [if_pos hnil] at hgl
        cases hgl
      · rw [if_neg hnil] at hgl
        have hfaces : feat.faces = membersOfName faces n :=
          (Option.some_inj.mp hgl).symm
        have hmem : f ∈ (membersOfName faces n).map FeatureMember.face_id := by
          rw [← hfaces]
          exact hfm
        have hWfn := (hA f n).mpr ⟨hnil, hmem⟩
        have hfilter : ((f, n) : ℤ × String) ∈
            (((buildFeatureGroups faces).map
              (fun g => g.2.map (fun mem => (mem.face_id, g.1)))).flatten.filter
                (fun w => decide (w.1 = f))) :=
          List.mem_filter.mpr ⟨hWfn, by simp⟩
        have hne : (((buildFeatureGroups faces).map
            (fun g => g.2.map (fun mem => (mem.face_id, g.1)))).flatten.filter
              (fun w => decide (w.1 = f))) ≠ [] :=
          List.ne_nil_of_mem hfilter
        obtain ⟨w, hlast⟩ : ∃ w, (((buildFeatureGroups faces).map
            (fun g => g.2.map (fun mem => (mem.face_id, g.1)))).flatten.filter
              (fun w => decide (w.1 = f))).getLast? = some w :=
          ⟨_, List.getLast?_eq_getLast_of_ne_nil hne⟩
        rw [hlast]
        dsimp only
        have hwmem := mem_of_getLast?_eq_some hlast
        have hwW := (List.mem_filter.mp hwmem).1
        have hwf : w.1 = f := by
          have := (List.mem_filter.mp hwmem).2
          simpa using this
        have hWfw : ((f, w.2) : ℤ × String) ∈
            ((buildFeatureGroups faces).map
              (fun g => g.2.map (fun mem => (mem.face_id, g.1)))).flatten := by
          have hpair : w = (f, w.2) := by
            cases w
            simp only at hwf
            rw [hwf]
          rw [← hpair]
          exact hwW
        obtain ⟨hnil2, hmem2⟩ := (hA f w.2).mp hWfw
        have : w.2 = n :=
          membersOfName_name_unique faces hgood.1 f w.2 n hmem2 hmem
        rw [this]

theorem Inv_applyOp (op : Op) (s : ModelState) (hop : GoodOp op)
    (h : Inv s) : Inv (applyOp op s) := by
  cases op with
  | load md faces info fn => exact Inv_loadModel md faces info fn s hop
  | clearM => exact Inv_empty_maps _ rfl rfl
  | select id sh => exact Inv_of_fields rfl rfl h
  | clearSel => exact Inv_of_fields rfl rfl h
  | hover id => exact Inv_of_fields rfl rfl h
  | toggleMulti => exact Inv_of_fields rfl rfl h
  | create n => exact Inv_createFeature s n hop h
  | deleteF n => exact Inv_deleteFeature s n h
  | xray b => exact Inv_of_fields rfl rfl h
  | wire b => exact Inv_of_fields rfl rfl h
  | colors b => exact Inv_of_fields rfl rfl h
  | grid p => exact Inv_of_fields rfl rfl h
  | clip p => exact Inv_of_fields rfl rfl h
  | clipOff q => exact Inv_of_fields rfl rfl h
  | flip => exact Inv_of_fields rfl rfl h

theorem goodReachable_Inv (s : ModelState) (h : GoodReachable s) : Inv s := by
  induction h with
  | init => exact Inv_initialState
  | step op s' hop _ ih => exact Inv_applyOp op s' hop ih

/-- C3 amended: the features map and the reverse index remain mutually
consistent — a face maps to a name exactly when that feature exists and
lists the face, and no face sits in two features — in every state reachable
through the store mutations, provided createFeature is only called with
nonempty names and loadModel only with faces carrying unique ids and no
hierarchical name with an empty top-level group; the unrestricted claim
fails through empty feature names, which the JS truthiness ownership check
never detects. -/
theorem goodReachable_consistent (s : ModelState) (h : GoodReachable s) :
    Consistent s := by
  have hi := goodReachable_Inv s h
  refine ⟨hi.2, ?_⟩
  intro n1 n2 feat1 feat2 f hl1 hl2 hm1 hm2
  have e1 := (hi.2 f n1).mpr ⟨feat1, hl1, hm1⟩
  have e2 := (hi.2 f n2).mpr ⟨feat2, hl2, hm2⟩
  rw [e1] at e2
  exact Option.some_inj.mp e2

/-- C3 witness: the invariant holds at the concrete restricted-reachable
state obtained by selecting face 5 and creating the feature boss. -/
theorem goodReachable_consistent_witness :
    Consistent (applyOp (Op.create "boss")
      (applyOp (Op.select 5 true) initialState)) :=
  goodReachable_consistent _
    (GoodReachable.step (Op.create "boss") _
      (show ("boss" : String) ≠ "" by decide)
      (GoodReachable.step (Op.select 5 true) _ trivial GoodReachable.init))

/-! Claim C4: the vertex color rebuild. -/

theorem set_get?_aux (cols : List Vec3) (vi v : ℕ) (c : Vec3) :
    (cols.set vi c)[v]? =
      if vi = v ∧ v < cols.length then some c else cols[v]? := by
  rw [List.getElem?_set]
  by_cases h : vi = v
  · subst h
    by_cases hl : vi < cols.length
    · simp [hl]
    · rw [if_pos rfl, if_neg hl, if_neg (fun hc => hl hc.2),
        List.getElem?_eq_none (Nat.le_of_not_lt hl)]
  · simp [h]

theorem setTriColor_length (tris : List ℕ) (cols : List Vec3) (t : ℕ)
    (c : Vec3) : (setTriColor tris cols t c).length = cols.length := by
  unfold setTriColor
  dsimp only
  cases tris[t * 3]? <;> cases tris[t * 3 + 1]? <;> cases tris[t * 3 + 2]? <;>
    simp [List.length_set]

theorem setTriColor_get? (tris : List ℕ) (cols : List Vec3) (t : ℕ)
    (c : Vec3) (v : ℕ) :
    (setTriColor tris cols t c)[v]? =
      if triHasVert tris t v = true ∧ v < cols.length then some c
      else cols[v]? := by
  unfold setTriColor triHasVert
  dsimp only
  cases h0 : tris[t * 3]? <;> cases h1 : tris[t * 3 + 1]? <;>
    cases h2 : tris[t * 3 + 2]? <;>
    simp only [h0, h1, h2, set_get?_aux, List.length_set, Bool.or_eq_true,
      beq_iff_eq, Option.some.injEq] <;>
    split_ifs <;> simp_all

theorem paintPass_length (tris : List ℕ) (g : ℕ → Option Vec3) (ts : List ℕ)
    (cols : List Vec3) : (paintPass tris g ts cols).length = cols.length := by
  unfold paintPass
  induction ts generalizing cols with
  | nil => rfl
  | cons t ts ih =>
      rw [List.foldl_cons]
      cases hgt : g t with
      | none => exact ih cols
      | some c =>
          rw [ih (setTriColor tris cols t c)]
          exact setTriColor_length tris cols t c

theorem paintPass_get? (tris : List ℕ) (g : ℕ → Option Vec3) (ts : List ℕ)
    (cols : List Vec3) (v : ℕ) (hv : v < cols.length) :
    (paintPass tris g ts cols)[v]? =
      match (ts.filter
          (fun t => (g t).isSome && triHasVert tris t v)).getLast? with
      | some t => g t
      | none => cols[v]? := by
  unfold paintPass
  induction ts generalizing cols with
  | nil => simp
  | cons t ts ih =>
      rw [List.foldl_cons, List.filter_cons]
      cases hgt : g t with
      | none =>
          rw [if_neg (by simp)]
          exact ih cols hv
      | some c =>
          have hv' : v < (setTriColor tris cols t c).length := by
            rw [setTriColor_length]
            exact hv
          rw [ih (setTriColor tris cols t c) hv']
          by_cases hTH : triHasVert tris t v = true
          · rw [if_pos (by simp [hTH])]
            cases hf : (ts.filter
                (fun t => (g t).isSome && triHasVert tris t v)) with
            | nil =>
                simp only [hf, List.getLast?_singleton, List.getLast?_nil]
                rw [setTriColor_get?, if_pos ⟨hTH, hv⟩, hgt]
            | cons y ys =>
                obtain ⟨z, hz⟩ := Option.isSome_iff_exists.mp
                  (List.getLast?_isSome.mpr (List.cons_ne_nil y ys))
                simp only [hf, List.getLast?_cons_cons, hz]
          · rw [if_neg (by simp [hTH])]
            cases hf : (ts.filter
                (fun t => (g t).isSome && triHasVert tris t v)).getLast? with
            | none =>
                simp only [hf]
                rw [setTriColor_get?, if_neg (fun hc => hTH hc.1)]
            | some t' => simp only [hf]

theorem paintPass_const_get? (tris : List ℕ) (P : ℕ → Bool) (C : Vec3)
    (ts : List ℕ) (cols : List Vec3) (v : ℕ) (hv : v < cols.length) :
    (paintPass tris (fun t => if P t then some C else none) ts cols)[v]? =
      if ts.any (fun t => P t && triHasVert tris t v) then some C
      else cols[v]? := by
  rw [paintPass_get? tris _ ts cols v hv]
  have hpred : (fun t =>
      ((if P t then some C else none) : Option Vec3).isSome
        && triHasVert tris t v) = (fun t => P t && triHasVert tris t v) := by
    funext t
    cases hP : P t <;> simp [hP]
  rw [hpred]
  cases hf : (ts.filter (fun t => P t && triHasVert tris t v)).getLast? with
  | some t =>
      have hmem := mem_of_getLast?_eq_some hf
      have hp := (List.mem_filter.mp hmem).2
      have hmem2 := (List.mem_filter.mp hmem).1
      have hP : P t = true := by
        have := hp
        simp only [Bool.and_eq_true] at this
        exact this.1
      have hany : ts.any (fun t => P t && triHasVert tris t v) = true :=
        List.any_eq_true.mpr ⟨t, hmem2, hp⟩
      rw [hany]
      dsimp only
      rw [if_pos hP, if_pos rfl]
  | none =>
      have hnil : ts.filter (fun t => P t && triHasVert tris t v) = [] :=
        List.getLast?_eq_none.mp hf
      have hany : ts.any (fun t => P t && triHasVert tris t v) = false := by
        rw [List.any_eq_false]
        intro t hmem
        intro hp
        have : t ∈ ts.filter (fun t => P t && triHasVert tris t v) :=
          List.mem_filter.mpr ⟨hmem, hp⟩
        rw [hnil] at this
        cases this
      rw [hany]
      simp

theorem selPass_length (tris : List ℕ) (faceIds : List ℤ) (T : ℕ)
    (sel : List ℤ) (cols : List Vec3) :
    (sel.foldl
      (fun cs selId =>
        paintPass tris
          (fun t =>
            if faceIds[t]? == some selId then some SELECT_COLOR else none)
          (List.range T) cs) cols).length = cols.length := by
  induction sel generalizing cols with
  | nil => rfl
  | cons s rest ih =>
      rw [List.foldl_cons, ih, paintPass_length]

theorem selPass_get? (tris : List ℕ) (faceIds : List ℤ) (T : ℕ)
    (sel : List ℤ) (cols : List Vec3) (v : ℕ) (hv : v < cols.length) :
    (sel.foldl
      (fun cs selId =>
        paintPass tris
          (fun t =>
            if faceIds[t]? == some selId then some SELECT_COLOR else none)
          (List.range T) cs) cols)[v]? =
      if sel.any (fun selId => (List.range T).any
          (fun t => (faceIds[t]? == some selId) && triHasVert tris t v))
      then some SELECT_COLOR else cols[v]? := by
  induction sel generalizing cols with
  | nil => simp
  | cons s rest ih =>
      rw [List.foldl_cons]
      have hv1 : v < (paintPass tris
          (fun t => if faceIds[t]? == some s then some SELECT_COLOR else none)
          (List.range T) cols).length := by
        rw [paintPass_length]
        exact hv
      rw [ih _ hv1,
        paintPass_const_get? tris _ SELECT_COLOR (List.range T) cols v hv,
        List.any_cons]
      cases hA : (List.range T).any
          (fun t => (faceIds[t]? == some s) && triHasVert tris t v) <;>
        cases hB : rest.any (fun selId => (List.range T).any
          (fun t => (faceIds[t]? == some selId) && triHasVert tris t v)) <;>
        simp [hA, hB]

theorem rebuildColors_length (md : MeshData) (sel : List ℤ) (hovered : ℤ)
    (features : List (String × Feature)) (f2f : List (ℤ × String))
    (cv : Bool) (b : List Vec3) :
    (rebuildColors md sel hovered features f2f cv b).length = b.length := by
  unfold rebuildColors
  dsimp only
  rw [selPass_length]
  split_ifs <;> simp [paintPass_length]

theorem rebuildColors_congr_base (md : MeshData) (sel : List ℤ)
    (hovered : ℤ) (features : List (String × Feature))
    (f2f : List (ℤ × String)) (cv : Bool) (b b' : List Vec3)
    (h : b.length = b'.length) :
    rebuildColors md sel hovered features f2f cv b =
      rebuildColors md sel hovered features f2f cv b' := by
  unfold rebuildColors
  dsimp only
  rw [List.map_const', List.map_const', h]

theorem hoverStage_get? (tris : List ℕ) (faceIds : List ℤ) (T : ℕ)
    (hovered : ℤ) (sel : List ℤ) (cols : List Vec3) (v : ℕ)
    (hv : v < cols.length) :
    (if (decide (hovered ≥ 0) && !(jsHas sel hovered)) = true then
        paintPass tris
          (fun t =>
            if faceIds[t]? == some hovered then some HOVER_COLOR else none)
          (List.range T) cols
      else cols)[v]? =
      if (decide (hovered ≥ 0) && !(jsHas sel hovered) && (List.range T).any
          (fun t => (faceIds[t]? == some hovered) && triHasVert tris t v))
          = true
      then some HOVER_COLOR else cols[v]? := by
  by_cases hh : (decide (hovered ≥ 0) && !(jsHas sel hovered)) = true
  · rw [if_pos hh, paintPass_const_get? tris _ HOVER_COLOR (List.range T)
      cols v hv]
    cases hany : (List.range T).any
        (fun t => (faceIds[t]? == some hovered) && triHasVert tris t v) <;>
      simp [hh, hany]
  · rw [if_neg hh]
    have hfalse : (decide (hovered ≥ 0) && !(jsHas sel hovered)
        && (List.range T).any
          (fun t => (faceIds[t]? == some hovered) && triHasVert tris t v))
        = false := by
      cases hx : (decide (hovered ≥ 0) && !(jsHas sel hovered)) with
      | true => exact absurd hx hh
      | false => simp
    rw [hfalse]
    simp

theorem featStage_get? (tris : List ℕ) (g : ℕ → Option Vec3) (T : ℕ)
    (b : List Vec3) (cv : Bool) (v : ℕ) (hv : v < b.length) :
    (if cv = true then
        paintPass tris g (List.range T) (b.map (fun _ => BASE_COLOR))
      else b.map (fun _ => BASE_COLOR))[v]? =
      some (if cv = true then
          (match lastWriter tris g T v with
           | some c => c
           | none => BASE_COLOR)
        else BASE_COLOR) := by
  have hbase : (b.map (fun _ => BASE_COLOR))[v]? = some BASE_COLOR := by
    rw [List.map_const']
    exact List.getElem?_replicate_of_lt hv
  by_cases hcv : cv = true
  · rw [if_pos hcv, if_pos hcv, paintPass_get? tris g (List.range T) _ v
      (by rw [List.map_const', List.length_replicate]; exact hv)]
    unfold lastWriter
    cases hf : ((List.range T).filter
        (fun t => (g t).isSome && triHasVert tris t v)).getLast? with
    | some t =>
        have hmem := mem_of_getLast?_eq_some hf
        have hp := (List.mem_filter.mp hmem).2
        have hsome : (g t).isSome = true := by
          simp only [Bool.and_eq_true] at hp
          exact hp.1
        obtain ⟨c, hc⟩ := Option.isSome_iff_exists.mp hsome
        simp [hc]
    | none => simp [List.getElem?_replicate_of_lt hv]
  · rw [if_neg hcv, if_neg hcv, hbase]

/-- C4: the rebuilt color buffer realizes the four specified rules in
priority order — base everywhere, feature colors when visible, hover on the
unselected hovered face, selection always winning — with each vertex's final
color given by the declarative colorSpec, and rebuilding on top of a
previous rebuild with identical inputs reproduces the buffer exactly
(determinism and idempotence). -/
theorem rebuildColors_spec (md : MeshData) (sel : List ℤ) (hovered : ℤ)
    (features : List (String × Feature)) (f2f : List (ℤ × String))
    (cv : Bool) (b : List Vec3) :
    rebuildColors md sel hovered features f2f cv
        (rebuildColors md sel hovered features f2f cv b) =
      rebuildColors md sel hovered features f2f cv b
    ∧ ∀ v, v < b.length →
        (rebuildColors md sel hovered features f2f cv b)[v]? =
          some (colorSpec md sel hovered features f2f cv v) := by
  constructor
  · exact rebuildColors_congr_base md sel hovered features f2f cv _ _
      (rebuildColors_length md sel hovered features f2f cv b)
  · intro v hv
    unfold rebuildColors colorSpec
    dsimp only
    have hlF : (if cv = true then
        paintPass md.triangles (featColorOf features f2f md.face_ids)
          (List.range md.face_ids.length) (b.map (fun _ => BASE_COLOR))
      else b.map (fun _ => BASE_COLOR)).length = b.length := by
      split_ifs <;> simp [paintPass_length]
    have hlH : (if (decide (hovered ≥ 0) && !(jsHas sel hovered)) = true then
        paintPass md.triangles
          (fun t =>
            if md.face_ids[t]? == some hovered then some HOVER_COLOR
            else none)
          (List.range md.face_ids.length)
          (if cv = true then
            paintPass md.triangles (featColorOf features f2f md.face_ids)
              (List.range md.face_ids.length) (b.map (fun _ => BASE_COLOR))
          else b.map (fun _ => BASE_COLOR))
      else
        (if cv = true then
          paintPass md.triangles (featColorOf features f2f md.face_ids)
            (List.range md.face_ids.length) (b.map (fun _ => BASE_COLOR))
        else b.map (fun _ => BASE_COLOR))).length = b.length := by
      split_ifs <;> simp [paintPass_length]
    rw [selPass_get? md.triangles md.face_ids md.face_ids.length sel _ v
      (by rw [hlH]; exact hv)]
    by_cases hs : sel.any (fun selId =>
        (List.range md.face_ids.length).any
          (fun t => (md.face_ids[t]? == some selId)
            && triHasVert md.triangles t v)) = true
    · rw [if_pos hs, if_pos hs]
    · rw [if_neg hs, if_neg hs]
      rw [hoverStage_get? md.triangles md.face_ids md.face_ids.length hovered
        sel _ v (by rw [hlF]; exact hv)]
      by_cases hh : (decide (hovered ≥ 0) && !(jsHas sel hovered)
          && (List.range md.face_ids.length).any
            (fun t => (md.face_ids[t]? == some hovered)
              && triHasVert md.triangles t v)) = true
      · rw [if_pos hh, if_pos hh]
      · rw [if_neg hh, if_neg hh]
        exact featStage_get? md.triangles
          (featColorOf features f2f md.face_ids) md.face_ids.length b cv v hv

/-- C4 witness: on the one-triangle mesh with face 7 selected, the rebuilt
buffer agrees with colorSpec at vertex 0, and that color is the selection
color. -/
theorem rebuildColors_spec_witness :
    (rebuildColors oneTriMesh [7] (-1) [("f", ⟨(1, 0, 0), []⟩)] [(7, "f")]
      true (List.replicate 3 ((0 : ℚ), (0 : ℚ), (0 : ℚ))))[0]? =
        some (colorSpec oneTriMesh [7] (-1) [("f", ⟨(1, 0, 0), []⟩)]
          [(7, "f")] true 0)
    ∧ colorSpec oneTriMesh [7] (-1) [("f", ⟨(1, 0, 0), []⟩)] [(7, "f")]
        true 0 = SELECT_COLOR :=
  ⟨(rebuildColors_spec oneTriMesh [7] (-1) [("f", ⟨(1, 0, 0), []⟩)]
      [(7, "f")] true (List.replicate 3 ((0 : ℚ), (0 : ℚ), (0 : ℚ)))).2 0
    (by decide), rfl⟩

end AgentCad
